import Mathlib

/-!
Verification development for the beam-calculator static-analysis engine.

The definitions below are a shallow embedding of the TypeScript solver
(`solveBeam`, `solveReactions`, `getTotalLoads`, `computeChartInference`)
and of the data model in the types module.  JavaScript IEEE-754 numbers are
modelled by exact rationals (ℚ); JavaScript division of rationals is total
in Lean (q / 0 = 0), which matters only for inputs excluded by the data
model invariants (positive length, supports inside the beam).  Array
iteration is modelled by folds or by structural recursion over `List`;
`Array.prototype.sort` with the comparator `(a, b) => a.position - b.position`
(stable, ascending by position) is modelled by a stable insertion sort.
JavaScript number-to-string primitives (`toFixed`, `toExponential`, template
interpolation) are modelled by the corresponding exact-decimal renderings of
rationals; they are used only inside the narrative strings of the result.
-/

-- ─── Data model (types module) ────────────────────────────────────────────────

inductive SupportType | pin | roller | fixed
deriving DecidableEq

inductive LoadType | point | udl | uvl | moment | torque
deriving DecidableEq

inductive UnitSystem | SI | kNm | Imperial
deriving DecidableEq

structure Support where
  id : String
  type : SupportType
  position : ℚ
deriving DecidableEq

structure Hinge where
  id : String
  position : ℚ
deriving DecidableEq

structure Load where
  id : String
  type : LoadType
  position : ℚ
  magnitude : ℚ
  endMagnitude : Option ℚ := none
  endPosition : Option ℚ := none
  label : Option String := none
  combinationId : Option String := none
deriving DecidableEq

structure LoadCombination where
  id : String
  name : String
  factorDead : ℚ
  factorLive : ℚ
  activeLoadIds : List String
deriving DecidableEq

structure UnitConfig where
  system : UnitSystem
  length : String
  force : String
  moment : String
  stress : String
  deflection : String
  distributed : String
deriving DecidableEq

structure BeamConfig where
  length : ℚ
  E : ℚ
  G : ℚ
  I : ℚ
  J : ℚ
  depth : ℚ
  supports : List Support
  hinges : List Hinge
  loads : List Load
  loadCombinations : List LoadCombination
  units : UnitConfig
  gravity : ℚ

structure SolverStep where
  title : String
  description : String
  equations : Option (List String) := none
  result : Option String := none
deriving DecidableEq

/-- One sample of a series: the `{ x, value }` objects of the source. -/
structure Pt where
  x : ℚ
  value : ℚ
deriving DecidableEq

/-- Chart inference record.  The running maximum starts at JavaScript
`-Infinity` and the running minimum at `Infinity`; over exact rationals those
sentinels are modelled by `none` (so `maxValue = none` can occur only for an
empty series, exactly when the source would report `-Infinity`). -/
structure ChartInference where
  maxValue : Option ℚ
  maxPosition : ℚ
  minValue : Option ℚ
  minPosition : ℚ
  zeroCrossings : List ℚ
  summary : String
deriving DecidableEq

/-- Per-support reaction: vertical force and, for fixed supports, a moment. -/
structure Reaction where
  Fy : ℚ
  Mz : Option ℚ := none
  Tx : Option ℚ := none
deriving DecidableEq

/-- Analysis result.  The `reactions` object keyed by support id is modelled
as an association list in insertion order. -/
structure AnalysisResult where
  reactions : List (String × Reaction)
  shearForce : List Pt
  bendingMoment : List Pt
  slope : List Pt
  deflection : List Pt
  angleOfTwist : List Pt
  maxDeflection : ℚ
  maxBendingMoment : ℚ
  maxShearForce : ℚ
  maxStress : ℚ
  maxAngleOfTwist : ℚ
  hasTorsion : Bool
  steps : List SolverStep
  sfInference : ChartInference
  bmInference : ChartInference
  deflectionInference : ChartInference

-- ─── Number-to-string primitives (model of the JavaScript runtime) ────────────

/-- Model of `Number.prototype.toFixed(d)` over exact rationals: round
`|q|·10^d` to the nearest integer (ties away from zero, as the ES spec picks
the larger candidate for the negated absolute value), then print with a sign
and `d` decimals. -/
def toFixed (q : ℚ) (d : ℕ) : String :=
  let sgn := if q < 0 then "-" else ""
  let n := (⌊|q| * 10 ^ d + 1 / 2⌋).toNat
  if d = 0 then sgn ++ toString n
  else
    let frac := toString (n % 10 ^ d)
    sgn ++ toString (n / 10 ^ d) ++ "." ++
      String.mk (List.replicate (d - frac.length) (Char.ofNat 48)) ++ frac

/-- Model of `Number.prototype.toExponential(d)` over exact rationals. -/
def toExponential (q : ℚ) (d : ℕ) : String :=
  if q = 0 then
    "0" ++ (if d = 0 then "" else "." ++ String.mk (List.replicate d (Char.ofNat 48))) ++ "e+0"
  else
    let sgn := if q < 0 then "-" else ""
    let e := Int.log 10 |q|
    let n := (⌊|q| * (10 : ℚ) ^ ((d : ℤ) - e) + 1 / 2⌋).toNat
    let (n, e) := if n ≥ 10 ^ (d + 1) then (10 ^ d, e + 1) else (n, e)
    let digits := toString n
    let mantissa :=
      if d = 0 then digits
      else (digits.take 1) ++ "." ++ (digits.drop 1)
    sgn ++ mantissa ++ "e" ++ (if e < 0 then "-" else "+") ++ toString e.natAbs

/-- Model of JavaScript template interpolation of a number
(`Number.prototype.toString`): integers print exactly; the shortest-float
rendering of non-integers is not reproducible over ℚ and is modelled by the
exact fraction. -/
def numStr (q : ℚ) : String :=
  let intPart := if q.num < 0 then "-" ++ toString q.num.natAbs else toString q.num.natAbs
  if q.den = 1 then intPart else intPart ++ "/" ++ toString q.den

-- ─── Display helpers (types module) ───────────────────────────────────────────

def UNIT_SYSTEMS : UnitSystem → UnitConfig
  | .SI => ⟨.SI, "m", "N", "N·m", "Pa", "mm", "N/m"⟩
  | .kNm => ⟨.kNm, "m", "kN", "kN·m", "MPa", "mm", "kN/m"⟩
  | .Imperial => ⟨.Imperial, "ft", "lbf", "lbf·ft", "psi", "in", "lbf/ft"⟩

def displayForce (val : ℚ) (u : UnitConfig) : String :=
  if u.system = .kNm then toFixed (val / 1000) 3 ++ " kN"
  else if u.system = .Imperial then toFixed (val * (2248 / 10000)) 3 ++ " lbf"
  else toFixed val 2 ++ " N"

def displayMoment (val : ℚ) (u : UnitConfig) : String :=
  if u.system = .kNm then toFixed (val / 1000) 3 ++ " kN·m"
  else if u.system = .Imperial then toFixed (val * (7376 / 10000)) 3 ++ " lbf·ft"
  else toFixed val 2 ++ " N·m"

def displayDeflection (val : ℚ) (u : UnitConfig) : String :=
  if u.system = .Imperial then toFixed (val * (393701 / 10000)) 4 ++ " in"
  else toFixed (val * 1000) 3 ++ " mm"

def displayStress (val : ℚ) (u : UnitConfig) : String :=
  if u.system = .kNm then toFixed (val / 10 ^ 6) 3 ++ " MPa"
  else if u.system = .Imperial then toFixed (val * (145 / 10 ^ 6)) 3 ++ " psi"
  else toFixed val 2 ++ " Pa"

def displayLength (val : ℚ) (u : UnitConfig) : String :=
  if u.system = .Imperial then toFixed (val * (328084 / 100000)) 3 ++ " ft"
  else toFixed val 3 ++ " m"

/-- Stress display used inside `solveBeam` (keyed on the unit-system tag). -/
def displayStressRaw (val : ℚ) (system : UnitSystem) : String :=
  if system = .kNm then toFixed (val / 10 ^ 6) 3 ++ " MPa"
  else if system = .Imperial then toFixed (val * (145 / 10 ^ 6)) 3 ++ " psi"
  else toFixed val 2 ++ " Pa"

def classifyBeam (beam : BeamConfig) : String :=
  match beam.supports.find? (fun s => s.type == SupportType.fixed) with
  | some _ => "Cantilever Beam"
  | none => if beam.supports.length = 2 then "Simply Supported Beam"
            else "Beam (unsupported / indeterminate)"

-- ─── Chart inference analyzer ─────────────────────────────────────────────────

/-- Accumulator of the single scan in `computeChartInference`.  `maxVal = none`
stands for the `-Infinity` start value and `minVal = none` for `Infinity`. -/
structure CCIAcc where
  maxVal : Option ℚ
  maxPos : ℚ
  minVal : Option ℚ
  minPos : ℚ
  crossings : List ℚ
deriving DecidableEq

/-- Comparison `value > maxVal` against the running maximum (true against the
`-Infinity` start). -/
def gtBot (v : ℚ) : Option ℚ → Bool
  | none => true
  | some m => decide (m < v)

/-- Comparison `value < minVal` against the running minimum (true against the
`Infinity` start). -/
def ltTop (v : ℚ) : Option ℚ → Bool
  | none => true
  | some m => decide (v < m)

/-- Interpolated crossing position between a previous station `q` and the
current station `p` (`frac = |prev| / (|prev| + |value|)`). -/
def crossPos (q p : Pt) : ℚ :=
  q.x + |q.value| / (|q.value| + |p.value|) * (p.x - q.x)

/-- One iteration of the scan, field by field: the max update
(`if (value > maxVal)`) touches only `maxVal`/`maxPos`, the min update only
`minVal`/`minPos`, and the crossing test (when a previous station exists)
appends to the crossing list, exactly as the source loop body. -/
def cciUpdate (st : CCIAcc) (prev : Option Pt) (p : Pt) : CCIAcc :=
  { maxVal := if gtBot p.value st.maxVal then some p.value else st.maxVal
    maxPos := if gtBot p.value st.maxVal then p.x else st.maxPos
    minVal := if ltTop p.value st.minVal then some p.value else st.minVal
    minPos := if ltTop p.value st.minVal then p.x else st.minPos
    crossings := st.crossings ++
      (match prev with
       | none => []
       | some q =>
         if (q.value < 0 ∧ p.value ≥ 0) ∨ (q.value > 0 ∧ p.value ≤ 0) then [crossPos q p]
         else []) }

/-- The scan over the series, carrying the previous station. -/
def cciScan (st : CCIAcc) (prev : Option Pt) : List Pt → CCIAcc
  | [] => st
  | p :: rest => cciScan (cciUpdate st prev p) (some p) rest

def cciInit : CCIAcc := ⟨none, 0, none, 0, []⟩

/-- Rendering of an extreme value in the summary; `none` is the untouched
`-Infinity` / `Infinity` sentinel of an empty series. -/
def fmtExtreme (formatFn : ℚ → String) : Option ℚ → String
  | none => "Infinity"
  | some v => formatFn v

def computeChartInference (data : List Pt) (label : String) (formatFn : ℚ → String) :
    ChartInference :=
  let st := cciScan cciInit none data
  { maxValue := st.maxVal
    maxPosition := st.maxPos
    minValue := st.minVal
    minPosition := st.minPos
    zeroCrossings := st.crossings
    summary :=
      "Maximum " ++ label ++ ": " ++ fmtExtreme formatFn st.maxVal ++ " at x = " ++
        toFixed st.maxPos 2 ++ " m. " ++
      "Minimum: " ++ fmtExtreme formatFn st.minVal ++ " at x = " ++
        toFixed st.minPos 2 ++ " m. " ++
      (if st.crossings.length > 0 then
        "Zero crossings at x = " ++
          String.intercalate ", " (st.crossings.map (fun z => toFixed z 2)) ++ " m."
      else "No zero crossings.") }

-- ─── Load resultants (getTotalLoads) ──────────────────────────────────────────

/-- The tolerance `1e-12` guarding the UVL centroid denominator. -/
def eps12 : ℚ := 1 / 10 ^ 12

/-- The tolerance `1e-10` below which a reaction is not re-injected as a load. -/
def eps10 : ℚ := 1 / 10 ^ 10

/-- Contribution of one load to `(sumFy, sumM)` in `getTotalLoads`: the
equivalent point force and its moment about `fixedPos`. -/
def gtlLoadFyM (fixedPos : ℚ) (l : Load) : ℚ × ℚ :=
  match l.type with
  | .point => (l.magnitude, l.magnitude * (l.position - fixedPos))
  | .udl =>
    let L := (l.endPosition.getD l.position) - l.position
    let P := l.magnitude * L
    let cen := l.position + L / 2
    (P, P * (cen - fixedPos))
  | .uvl =>
    let L := (l.endPosition.getD l.position) - l.position
    let w1 := l.magnitude
    let w2 := l.endMagnitude.getD 0
    if L > 0 then
      let P := (w1 + w2) / 2 * L
      let denom := w1 + w2
      let xc := if denom > eps12 then L / 3 * ((w1 + 2 * w2) / denom) else L / 2
      (P, P * ((l.position + xc) - fixedPos))
    else (0, 0)
  | .moment => (0, l.magnitude)
  | .torque => (0, 0)

/-- Narrative line pushed for one load in `getTotalLoads` (`none` when the
source pushes nothing: torque loads and degenerate UVLs). -/
def gtlEqLine (fixedPos : ℚ) (l : Load) : Option String :=
  match l.type with
  | .point => some ("Point: F=" ++ toFixed l.magnitude 2 ++ "N @ x=" ++ toFixed l.position 2 ++
      "m → M about A = " ++ toFixed (l.magnitude * (l.position - fixedPos)) 2 ++ " N·m")
  | .udl =>
    let L := (l.endPosition.getD l.position) - l.position
    let P := l.magnitude * L
    let cen := l.position + L / 2
    some ("UDL: P=" ++ toFixed P 2 ++ "N (centroid @ " ++ toFixed cen 2 ++ "m) → M = " ++
      toFixed (P * (cen - fixedPos)) 2 ++ " N·m")
  | .uvl =>
    let L := (l.endPosition.getD l.position) - l.position
    let w1 := l.magnitude
    let w2 := l.endMagnitude.getD 0
    if L > 0 then
      let P := (w1 + w2) / 2 * L
      let denom := w1 + w2
      let xc := if denom > eps12 then L / 3 * ((w1 + 2 * w2) / denom) else L / 2
      let cen := l.position + xc
      some ("UVL: P=" ++ toFixed P 2 ++ "N (centroid @ " ++ toFixed cen 2 ++ "m) → M = " ++
        toFixed (P * (cen - fixedPos)) 2 ++ " N·m")
    else none
  | .moment => some ("Moment: M=" ++ toFixed l.magnitude 2 ++ " N·m applied")
  | .torque => none

/-- `getTotalLoads`: reduce every load to `(sumFy, sumM)` about `fixedPos`,
together with the narrative step the source pushes.  The sums and the lines
are accumulated by the same per-load formulas as the source loop. -/
def getTotalLoads (loads : List Load) (fixedPos : ℚ) : (ℚ × ℚ) × SolverStep :=
  let sums := loads.foldl
    (fun acc l => (acc.1 + (gtlLoadFyM fixedPos l).1, acc.2 + (gtlLoadFyM fixedPos l).2))
    ((0 : ℚ), (0 : ℚ))
  let eqLines := loads.filterMap (gtlEqLine fixedPos)
  (sums,
    { title := "2a. Load Resultants"
      description := "Converting distributed loads to equivalent point loads:\n" ++
        String.intercalate "\n" eqLines
      equations := some eqLines })

-- ─── Reaction solver ──────────────────────────────────────────────────────────

/-- Stable insertion of a support into a position-sorted list (model of the
stable `Array.prototype.sort` with comparator `a.position - b.position`). -/
def insertS (s : Support) : List Support → List Support
  | [] => [s]
  | t :: ts => if s.position ≤ t.position then s :: t :: ts else t :: insertS s ts

/-- Stable sort of the supports by ascending position. -/
def sortByPosition : List Support → List Support
  | [] => []
  | s :: ss => insertS s (sortByPosition ss)

/-- The diagnostic step returned for configurations the solver cannot handle. -/
def unableStep : SolverStep :=
  { title := "2b. Reactions — Unable to Solve"
    description := "Need at least 2 supports (or 1 fixed) to solve reactions. Check configuration." }

def cantileverStep (fixedPos Ry Mz : ℚ) : SolverStep :=
  { title := "2b. Reactions — Cantilever"
    description := "For a cantilever fixed at x = " ++ toFixed fixedPos 2 ++ " m:\n\n" ++
      "  ΣFᵧ = 0  →  R_y = ΣF_loads = " ++ toFixed Ry 2 ++ " N (upward)\n" ++
      "  ΣM_A = 0 →  M_z = ΣM_loads = " ++ toFixed Mz 2 ++ " N·m (at fixed end)"
    equations := some ["ΣFᵧ = 0: R_A = " ++ toFixed Ry 2 ++ " N",
      "ΣM_A = 0: M_A = " ++ toFixed Mz 2 ++ " N·m"]
    result := some ("R_A = " ++ toFixed Ry 2 ++ " N ↑,  M_A = " ++ toFixed Mz 2 ++ " N·m") }

def simplySupportedStep (p1 p2 L sumFy sumM R1 R2 : ℚ) : SolverStep :=
  { title := "2b. Reactions — Simply Supported"
    description := "Supports at A (x=" ++ toFixed p1 2 ++ " m) and B (x=" ++ toFixed p2 2 ++
      " m), span L = " ++ toFixed L 2 ++ " m.\n\n" ++
      "  ΣM_A = 0:\n" ++ "    R_B × L = ΣM_about_A\n" ++
      "    R_B = " ++ toFixed sumM 2 ++ " / " ++ toFixed L 2 ++ " = " ++ toFixed R2 2 ++
      " N\n\n" ++
      "  ΣFᵧ = 0:\n" ++ "    R_A = ΣF − R_B = " ++ toFixed sumFy 2 ++ " − " ++ toFixed R2 2 ++
      " = " ++ toFixed R1 2 ++ " N"
    equations := some ["ΣM_A = 0: R_B = " ++ toFixed sumM 2 ++ " / " ++ toFixed L 2 ++
        " = " ++ toFixed R2 2 ++ " N",
      "ΣFᵧ = 0: R_A = " ++ toFixed R1 2 ++ " N"]
    result := some ("R_A = " ++ toFixed R1 2 ++ " N ↑,  R_B = " ++ toFixed R2 2 ++ " N ↑") }

/-- `solveReactions`: the reaction association list in insertion order,
paired with the steps the source pushes.  A fixed support (first in position
order) triggers the cantilever closed form; otherwise exactly two supports
trigger the simply-supported closed form; every other configuration yields an
empty reaction set with a diagnostic step. -/
def solveReactions (beam : BeamConfig) : List (String × Reaction) × List SolverStep :=
  let sorted := sortByPosition beam.supports
  match sorted.find? (fun s => s.type == SupportType.fixed) with
  | some f =>
    let r := getTotalLoads beam.loads f.position
    ([(f.id, { Fy := r.1.1, Mz := some r.1.2 })],
      [r.2, cantileverStep f.position r.1.1 r.1.2])
  | none =>
    match sorted with
    | [s1, s2] =>
      let L := s2.position - s1.position
      let r := getTotalLoads beam.loads s1.position
      let R2 := r.1.2 / L
      let R1 := r.1.1 - R2
      ([(s1.id, { Fy := R1 }), (s2.id, { Fy := R2 })],
        [r.2, simplySupportedStep s1.position s2.position L r.1.1 r.1.2 R1 R2])
    | _ => ([], [unableStep])

-- ─── Internal force integrator ────────────────────────────────────────────────

/-- Number of integration intervals (`const points = 500`); the series have
`points + 1 = 501` stations. -/
def points : ℕ := 500

/-- Station spacing `dx = L / points`. -/
def dx (beam : BeamConfig) : ℚ := beam.length / points

/-- Contribution of one effective load to `(V, M)` at the cut `x`
(the body of the `allLoads.forEach` in step 3 of the source). -/
def loadVM (bl x : ℚ) (l : Load) : ℚ × ℚ :=
  match l.type with
  | .point =>
    if x ≥ l.position then
      let F := -l.magnitude
      (F, F * (x - l.position))
    else (0, 0)
  | .moment =>
    if x ≥ l.position then (0, -l.magnitude) else (0, 0)
  | .udl =>
    let a := l.position
    let b := l.endPosition.getD bl
    if x ≥ a then
      let xEff := min x b
      let effLen := xEff - a
      let P := l.magnitude * effLen
      (-P, -P * (x - (a + effLen / 2)))
    else (0, 0)
  | .uvl =>
    let a := l.position
    let b := l.endPosition.getD bl
    let w1 := l.magnitude
    let w2 := l.endMagnitude.getD 0
    let Lload := b - a
    if x ≥ a ∧ Lload > 0 then
      let xEff := min x b
      let u := xEff - a
      let wx := w1 + (w2 - w1) * (u / Lload)
      let P := (w1 + wx) / 2 * u
      let denom := w1 + wx
      let xc := if denom > eps12 then u / 3 * ((w1 + 2 * wx) / denom) else u / 2
      (-P, -P * (x - (a + xc)))
    else (0, 0)
  | .torque => (0, 0)

/-- Shear and moment at the cut `x`: the sum of the per-load contributions. -/
def stationVM (bl : ℚ) (allLoads : List Load) (x : ℚ) : ℚ × ℚ :=
  allLoads.foldl (fun acc l => (acc.1 + (loadVM bl x l).1, acc.2 + (loadVM bl x l).2)) (0, 0)

/-- The effective load list: the applied loads followed by each reaction
re-expressed as loads (a point load for `Fy` above the `1e-10` threshold and
a moment load for a present `Mz` above the threshold). -/
def buildAllLoads (beam : BeamConfig) (reactions : List (String × Reaction)) : List Load :=
  beam.loads ++ (reactions.map (fun pr =>
    match beam.supports.find? (fun s => s.id == pr.1) with
    | none => []
    | some sup =>
      (if |pr.2.Fy| > eps10 then
        [{ id := "reac-" ++ pr.1 ++ "-y", type := LoadType.point,
           position := sup.position, magnitude := -pr.2.Fy }]
      else []) ++
      (match pr.2.Mz with
       | some mz =>
         if |mz| > eps10 then
           [{ id := "reac-" ++ pr.1 ++ "-m", type := LoadType.moment,
              position := sup.position, magnitude := -mz }]
         else []
       | none => []))).flatten

/-- Effective loads of a configuration (applied loads plus reaction loads). -/
def effLoads (beam : BeamConfig) : List Load :=
  buildAllLoads beam (solveReactions beam).1

def shearForceSeries (beam : BeamConfig) : List Pt :=
  (List.range (points + 1)).map
    (fun (i : ℕ) => ⟨(i : ℚ) * dx beam, (stationVM beam.length (effLoads beam) ((i : ℚ) * dx beam)).1⟩)

def bendingMomentSeries (beam : BeamConfig) : List Pt :=
  (List.range (points + 1)).map
    (fun (i : ℕ) => ⟨(i : ℚ) * dx beam, (stationVM beam.length (effLoads beam) ((i : ℚ) * dx beam)).2⟩)

/-- Running maximum of `|value|` over a series, starting at 0 (the
`if (Math.abs v > m) m = Math.abs v` updates of the source loops). -/
def runMaxAbs (l : List Pt) : ℚ :=
  l.foldl (fun m p => if |p.value| > m then |p.value| else m) 0

-- ─── Torsion integrator ───────────────────────────────────────────────────────

def torqueLoadsOf (beam : BeamConfig) : List Load :=
  beam.loads.filter (fun l => l.type == LoadType.torque)

/-- Reaction torque: minus the total applied torque when a fixed support sits
exactly at position 0, otherwise 0. -/
def txReact (beam : BeamConfig) : ℚ :=
  match beam.supports.find? (fun s => s.type == SupportType.fixed && s.position == 0) with
  | some _ => -(((torqueLoadsOf beam).map Load.magnitude).sum)
  | none => 0

/-- Internal torque at the cut `x`: reaction torque plus all torque loads at
positions `≤ x` (the `forEach` guard `x >= l.position`). -/
def torqueAt (beam : BeamConfig) (x : ℚ) : ℚ :=
  (torqueLoadsOf beam).foldl
    (fun acc l => if x ≥ l.position then acc + l.magnitude else acc) (txReact beam)

/-- Accumulated angle of twist at station `i` (`phi` of the source loop):
zero at station 0, then `phi += (T / GJ) * dx` per station. -/
def twistPhi (beam : BeamConfig) : ℕ → ℚ
  | 0 => 0
  | i + 1 => twistPhi beam i +
      (torqueAt beam (((i + 1 : ℕ) : ℚ) * dx beam) / (beam.G * beam.J)) * dx beam

def angleOfTwistSeries (beam : BeamConfig) : List Pt :=
  if (torqueLoadsOf beam).length > 0 then
    (List.range (points + 1)).map (fun (i : ℕ) => ⟨(i : ℚ) * dx beam, twistPhi beam i⟩)
  else
    (List.range (points + 1)).map (fun (i : ℕ) => ⟨(i : ℚ) * dx beam, 0⟩)

-- ─── Deflection integrator ────────────────────────────────────────────────────

/-- Bending moment sampled at station `i`. -/
def bmVal (beam : BeamConfig) (i : ℕ) : ℚ :=
  (stationVM beam.length (effLoads beam) ((i : ℚ) * dx beam)).2

/-- First trapezoidal pass (`slopeEI` array): the running integral of the
moment series. -/
def slopeEIseq (beam : BeamConfig) : ℕ → ℚ
  | 0 => 0
  | i + 1 => slopeEIseq beam i + (bmVal beam i + bmVal beam (i + 1)) / 2 * dx beam

/-- Second trapezoidal pass (`D_partial` array): the running integral of the
first pass. -/
def dPartialSeq (beam : BeamConfig) : ℕ → ℚ
  | 0 => 0
  | i + 1 => dPartialSeq beam i + (slopeEIseq beam i + slopeEIseq beam (i + 1)) / 2 * dx beam

/-- Station index nearest a position (`Math.round((pos / L) * points)`,
rounding half toward positive infinity like `Math.round`). -/
def nearestStation (beam : BeamConfig) (pos : ℚ) : ℕ :=
  (round (pos / beam.length * (points : ℚ))).toNat

/-- Slope and deflection series with the boundary-condition branches of the
source: a fixed support pins slope and deflection at its station; otherwise
two or more supports pin deflection at the two lowest-position supports;
otherwise both series are identically zero. -/
def slopeDeflSeries (beam : BeamConfig) : List Pt × List Pt :=
  let EI := beam.E * beam.I
  match beam.supports.find? (fun s => s.type == SupportType.fixed) with
  | some fs =>
    let fixedIndex := nearestStation beam fs.position
    let C1 := -(slopeEIseq beam fixedIndex)
    let C2 := -(dPartialSeq beam fixedIndex) - C1 * fs.position
    ((List.range (points + 1)).map
        (fun (i : ℕ) => ⟨(i : ℚ) * dx beam, (slopeEIseq beam i + C1) / EI⟩),
      (List.range (points + 1)).map
        (fun (i : ℕ) => ⟨(i : ℚ) * dx beam,
          (dPartialSeq beam i + C1 * ((i : ℚ) * dx beam) + C2) / EI⟩))
  | none =>
    match sortByPosition beam.supports with
    | sA :: sB :: _ =>
      let idxA := nearestStation beam sA.position
      let idxB := nearestStation beam sB.position
      let C1 := -(dPartialSeq beam idxB - dPartialSeq beam idxA) / (sB.position - sA.position)
      let C2 := -(dPartialSeq beam idxA) - C1 * sA.position
      ((List.range (points + 1)).map
          (fun (i : ℕ) => ⟨(i : ℚ) * dx beam, (slopeEIseq beam i + C1) / EI⟩),
        (List.range (points + 1)).map
          (fun (i : ℕ) => ⟨(i : ℚ) * dx beam,
            (dPartialSeq beam i + C1 * ((i : ℚ) * dx beam) + C2) / EI⟩))
    | _ =>
      ((List.range (points + 1)).map (fun (i : ℕ) => ⟨(i : ℚ) * dx beam, 0⟩),
        (List.range (points + 1)).map (fun (i : ℕ) => ⟨(i : ℚ) * dx beam, 0⟩))

-- ─── Narrative steps of solveBeam ─────────────────────────────────────────────

def loadLine (beam : BeamConfig) (l : Load) : String :=
  let u := beam.units
  match l.type with
  | .point => "  • Point Load: P = " ++ displayForce l.magnitude u ++ " at x = " ++
      displayLength l.position u
  | .udl => "  • UDL: w = " ++ numStr l.magnitude ++ " N/m from x = " ++
      displayLength l.position u ++ " to " ++ displayLength (l.endPosition.getD beam.length) u
  | .uvl => "  • UVL: w₁ = " ++ numStr l.magnitude ++ " N/m → w₂ = " ++
      numStr (l.endMagnitude.getD 0) ++ " N/m from x = " ++ displayLength l.position u ++
      " to " ++ displayLength (l.endPosition.getD beam.length) u
  | .moment => "  • Applied Moment: M = " ++ displayMoment l.magnitude u ++ " at x = " ++
      displayLength l.position u
  | .torque => "  • Torque: T = " ++ displayMoment l.magnitude u ++ " at x = " ++
      displayLength l.position u

def loadEquation (beam : BeamConfig) (l : Load) : String :=
  match l.type with
  | .point => "P = " ++ toFixed l.magnitude 2 ++ " N @ x=" ++ toFixed l.position 2 ++ " m"
  | .udl => "w = " ++ toFixed l.magnitude 2 ++ " N/m [" ++ toFixed l.position 2 ++ " → " ++
      toFixed (l.endPosition.getD beam.length) 2 ++ " m]"
  | .uvl => "w(x) = " ++ toFixed l.magnitude 2 ++ " + " ++
      toFixed (l.endMagnitude.getD 0 - l.magnitude) 2 ++ "·(x−" ++ toFixed l.position 2 ++
      ")/" ++ toFixed (l.endPosition.getD beam.length - l.position) 2 ++ " N/m"
  | _ => "M = " ++ toFixed l.magnitude 2 ++ " N·m @ x=" ++ toFixed l.position 2 ++ " m"

def setupStep (beam : BeamConfig) : SolverStep :=
  { title := "0. Problem Setup"
    description := "Beam length L = " ++ numStr beam.length ++ " m.\n" ++
      "Material: E = " ++ toFixed (beam.E / 10 ^ 9) 0 ++ " GPa, G = " ++
      toFixed (beam.G / 10 ^ 9) 0 ++ " GPa.\n" ++
      "Section: I = " ++ toExponential beam.I 2 ++ " m⁴, J = " ++ toExponential beam.J 2 ++
      " m⁴, depth = " ++ numStr beam.depth ++ " m.\n" ++
      "Gravity: g = " ++ numStr beam.gravity ++ " m/s²."
    equations := some ["L = " ++ numStr beam.length ++ " m",
      "E = " ++ toExponential beam.E 2 ++ " Pa",
      "I = " ++ toExponential beam.I 2 ++ " m⁴"]
    result := some ("Beam classified as: " ++ classifyBeam beam) }

def loadsStep (beam : BeamConfig) : SolverStep :=
  { title := "1. Applied Loads"
    description := toString beam.loads.length ++ " load(s) applied:\n" ++
      String.intercalate "\n" (beam.loads.map (loadLine beam))
    equations := some (beam.loads.map (loadEquation beam)) }

def sfdStep (beam : BeamConfig) (maxSF : ℚ) : SolverStep :=
  { title := "3. Shear Force Diagram (SFD)"
    description := "The Shear Force V(x) is computed by summing all vertical forces to the LEFT of a section cut at position x:\n\n" ++
      "  V(x) = Σ [Reaction forces to left of x] − Σ [Applied loads to left of x]\n\n" ++
      "For each load type:\n" ++
      "  • Point Load P at a: V jumps by +P (upward) or −P (downward)\n" ++
      "  • UDL w [a,b]: V decreases linearly at rate w N/m\n" ++
      "  • UVL w₁→w₂ [a,b]: V decreases parabolically\n\n" ++
      "Maximum |V| = " ++ displayForce maxSF beam.units
    equations := some ["V(x) = ΣFᵧ(left of x)", "For UDL: V(x) = V₀ − w·(x−a)",
      "|V|_max = " ++ toFixed maxSF 2 ++ " N"]
    result := some ("SFD computed over " ++ toString (points + 1) ++ " points, dx = " ++
      toFixed (dx beam) 4 ++ " m") }

def bmdStep (beam : BeamConfig) (maxBM : ℚ) : SolverStep :=
  { title := "4. Bending Moment Diagram (BMD)"
    description := "The Bending Moment M(x) is computed by taking moments of all forces to the LEFT of section cut x:\n\n" ++
      "  M(x) = Σ [Reaction moments] + Σ [Force × lever arm]\n\n" ++
      "Convention: Sagging moment (bottom tension) = Positive.\n\n" ++
      "Maximum |M| = " ++ displayMoment maxBM beam.units ++ "\n" ++
      "Location of max moment is at x where V = 0 (shear changes sign)."
    equations := some ["M(x) = Σ Fᵢ·(x − xᵢ)  [for all forces left of x]",
      "dM/dx = V(x)  ←→  M = ∫V dx",
      "|M|_max = " ++ toFixed maxBM 2 ++ " N·m"]
    result := some "BMD computed simultaneously with SFD" }

def stressStep (beam : BeamConfig) (maxBM maxStress : ℚ) : SolverStep :=
  { title := "5. Bending Stress"
    description := "Using the flexure formula σ = M·y / I:\n\n" ++
      "  y (distance from neutral axis) = depth/2 = " ++ toFixed (beam.depth / 2) 3 ++ " m\n" ++
      "  M_max = " ++ displayMoment maxBM beam.units ++ "\n" ++
      "  I = " ++ toExponential beam.I 3 ++ " m⁴\n\n" ++
      "  σ_max = M_max × y / I\n" ++
      "  σ_max = " ++ toFixed maxBM 2 ++ " × " ++ toFixed (beam.depth / 2) 3 ++ " / " ++
      toExponential beam.I 3
    equations := some ["σ = M·y / I  (Flexure Formula)",
      "σ_max = " ++ toFixed maxBM 2 ++ " × " ++ toFixed (beam.depth / 2) 3 ++ " / " ++
        toExponential beam.I 2,
      "σ_max = " ++ displayStressRaw maxStress beam.units.system]
    result := some ("Maximum bending stress = " ++ displayStressRaw maxStress beam.units.system) }

def torsionStep (beam : BeamConfig) : SolverStep :=
  { title := "6. Torsion & Angle of Twist"
    description := "Torque loads detected. Angle of twist φ(x) computed by integrating T(x)/(GJ):\n\n" ++
      "  G = " ++ toFixed (beam.G / 10 ^ 9) 0 ++ " GPa, J = " ++ toExponential beam.J 3 ++
      " m⁴\n" ++
      "  GJ = " ++ toExponential (beam.G * beam.J) 3 ++ " N·m²\n\n" ++
      "  φ(x) = ∫₀ˣ T(ξ)/(GJ) dξ"
    equations := some ["φ(x) = ∫₀ˣ T/(GJ) dξ",
      "GJ = " ++ toExponential (beam.G * beam.J) 3 ++ " N·m²"] }

def deflStep (beam : BeamConfig) : SolverStep :=
  { title := "7. Slope & Deflection"
    description := "Deflection y(x) is computed by double integration of the curvature equation:\n\n" ++
      "  EI·d²y/dx² = M(x)   → First integration → Slope θ(x) = dy/dx\n" ++
      "                       → Second integration → Deflection y(x)\n\n" ++
      "Boundary conditions applied:\n" ++
      (match beam.supports.find? (fun s => s.type == SupportType.fixed) with
       | some _ => "  • Fixed support: y = 0, θ = 0 at fixed end"
       | none => "  • Simply supported: y = 0 at both support positions")
    equations := some ["EI·d²y/dx² = M(x)", "EI·θ(x) = ∫M(x)dx + C₁",
      "EI·y(x) = ∫∫M(x)dx² + C₁·x + C₂", "BCs determine C₁ and C₂"] }

def maxDeflStep (beam : BeamConfig) (maxDef : ℚ) : SolverStep :=
  { title := "8. Maximum Deflection"
    description := "The maximum deflection occurs where slope θ(x) = 0 (or at beam end for cantilever).\n\n" ++
      "  δ_max = " ++ displayDeflection maxDef beam.units ++ "\n\n" ++
      "This is the greatest transverse displacement of the beam\x27s neutral axis."
    equations := some ["δ_max = " ++ toFixed (maxDef * 1000) 4 ++ " mm"]
    result := some ("Maximum deflection = " ++ displayDeflection maxDef beam.units) }

-- ─── Main solver ──────────────────────────────────────────────────────────────

/-- `solveBeam`: the full analysis pipeline, assembling the result from the
component definitions above in the order of the source. -/
def solveBeam (beam : BeamConfig) : AnalysisResult :=
  { reactions := (solveReactions beam).1
    shearForce := shearForceSeries beam
    bendingMoment := bendingMomentSeries beam
    slope := (slopeDeflSeries beam).1
    deflection := (slopeDeflSeries beam).2
    angleOfTwist := angleOfTwistSeries beam
    maxDeflection := runMaxAbs (slopeDeflSeries beam).2
    maxBendingMoment := runMaxAbs (bendingMomentSeries beam)
    maxShearForce := runMaxAbs (shearForceSeries beam)
    maxStress := runMaxAbs (bendingMomentSeries beam) * (beam.depth / 2) / beam.I
    maxAngleOfTwist := if (torqueLoadsOf beam).length > 0 then
        runMaxAbs (angleOfTwistSeries beam)
      else 0
    hasTorsion := (torqueLoadsOf beam).length > 0
    steps := [setupStep beam, loadsStep beam] ++ (solveReactions beam).2 ++
      [sfdStep beam (runMaxAbs (shearForceSeries beam)),
        bmdStep beam (runMaxAbs (bendingMomentSeries beam)),
        stressStep beam (runMaxAbs (bendingMomentSeries beam))
          (runMaxAbs (bendingMomentSeries beam) * (beam.depth / 2) / beam.I)] ++
      (if (torqueLoadsOf beam).length > 0 then [torsionStep beam] else []) ++
      [deflStep beam, maxDeflStep beam (runMaxAbs (slopeDeflSeries beam).2)]
    sfInference := computeChartInference (shearForceSeries beam) "Shear Force"
      (fun v => displayForce v beam.units)
    bmInference := computeChartInference (bendingMomentSeries beam) "Bending Moment"
      (fun v => displayMoment v beam.units)
    deflectionInference := computeChartInference (slopeDeflSeries beam).2 "Deflection"
      (fun v => displayDeflection v beam.units) }

lemma solveBeam_reactions (beam : BeamConfig) :
    (solveBeam beam).reactions = (solveReactions beam).1 := rfl

lemma solveBeam_shearForce (beam : BeamConfig) :
    (solveBeam beam).shearForce = shearForceSeries beam := by
  unfold solveBeam
  dsimp only

lemma solveBeam_bendingMoment (beam : BeamConfig) :
    (solveBeam beam).bendingMoment = bendingMomentSeries beam := by
  unfold solveBeam
  dsimp only

lemma solveBeam_slope (beam : BeamConfig) :
    (solveBeam beam).slope = (slopeDeflSeries beam).1 := rfl

lemma solveBeam_deflection (beam : BeamConfig) :
    (solveBeam beam).deflection = (slopeDeflSeries beam).2 := rfl

lemma solveBeam_angleOfTwist (beam : BeamConfig) :
    (solveBeam beam).angleOfTwist = angleOfTwistSeries beam := rfl

lemma solveBeam_hasTorsion (beam : BeamConfig) :
    (solveBeam beam).hasTorsion = decide ((torqueLoadsOf beam).length > 0) := rfl

lemma solveBeam_maxBendingMoment (beam : BeamConfig) :
    (solveBeam beam).maxBendingMoment = runMaxAbs (bendingMomentSeries beam) := by
  unfold solveBeam
  dsimp only

-- ─── Specification-side definitions ───────────────────────────────────────────

/-- Vertical resultant of an applied load as the specification describes it
(point `P`; UDL `w·ℓ`; UVL `((w1+w2)/2)·ℓ`; moments and torques carry no
vertical force), used to compare reaction sums against applied loads. -/
def appliedVerticalResultant (l : Load) : ℚ :=
  match l.type with
  | .point => l.magnitude
  | .udl => l.magnitude * (l.endPosition.getD l.position - l.position)
  | .uvl => (l.magnitude + l.endMagnitude.getD 0) / 2 * (l.endPosition.getD l.position - l.position)
  | .moment => 0
  | .torque => 0

/-- Zero-crossing list as the (amended) specification describes it: for each
consecutive pair, a crossing is recorded exactly when the pair enters or
strictly crosses zero, at the magnitude-weighted interpolated position. -/
def specZeroCrossings (data : List Pt) : List ℚ :=
  (data.zip data.tail).foldr
    (fun qp acc =>
      if (qp.1.value < 0 ∧ qp.2.value ≥ 0) ∨ (qp.1.value > 0 ∧ qp.2.value ≤ 0) then
        (qp.1.x + |qp.1.value| / (|qp.1.value| + |qp.2.value|) * (qp.2.x - qp.1.x)) :: acc
      else acc) []

/-- Convenient constructor for a UVL load over `[a, b]` from `w1` to `w2`. -/
def mkUVL (a b w1 w2 : ℚ) : Load :=
  { id := "uvl", type := LoadType.uvl, position := a, magnitude := w1,
    endMagnitude := some w2, endPosition := some b }

-- ─── Helper lemmas: chart-inference scan ──────────────────────────────────────

/-- Crossings recorded by the scan from a given previous station onward. -/
def crossList : Option Pt → List Pt → List ℚ
  | _, [] => []
  | none, p :: rest => crossList (some p) rest
  | some q, p :: rest =>
    (if (q.value < 0 ∧ p.value ≥ 0) ∨ (q.value > 0 ∧ p.value ≤ 0) then [crossPos q p]
     else []) ++ crossList (some p) rest

lemma cciScan_crossings (data : List Pt) :
    ∀ (st : CCIAcc) (prev : Option Pt),
      (cciScan st prev data).crossings = st.crossings ++ crossList prev data := by
  induction data with
  | nil => intro st prev; simp [cciScan, crossList]
  | cons p rest ih =>
    intro st prev
    rcases prev with _ | q
    · simp [cciScan, crossList, ih, cciUpdate]
    · simp [cciScan, crossList, ih, cciUpdate, crossPos, List.append_assoc]

lemma crossList_some_eq_spec (rest : List Pt) :
    ∀ q : Pt, crossList (some q) rest = specZeroCrossings (q :: rest) := by
  induction rest with
  | nil => intro q; simp [crossList, specZeroCrossings]
  | cons p rs ih =>
    intro q
    simp only [crossList, specZeroCrossings, List.zip, List.tail_cons, List.zipWith_cons_cons,
      List.foldr_cons]
    rw [ih p]
    simp only [specZeroCrossings, List.zip, List.tail_cons]
    split <;> simp [crossPos]

lemma crossList_none_eq_spec (data : List Pt) :
    crossList none data = specZeroCrossings data := by
  cases data with
  | nil => simp [crossList, specZeroCrossings]
  | cons p rest => simpa [crossList] using crossList_some_eq_spec rest p

-- ─── C4 ───────────────────────────────────────────────────────────────────────

/-- C4 (corrected): for every sampled series the recorded zero crossings are
exactly those of consecutive pairs with `v_i < 0 ∧ v_{i+1} ≥ 0` or
`v_i > 0 ∧ v_{i+1} ≤ 0` — a station exactly at zero counts as a crossing
boundary only when the pair enters zero, not when it leaves it — and each
crossing is placed at `x_i + (|v_i| / (|v_i| + |v_{i+1}|)) · (x_{i+1} − x_i)`. -/
theorem c4_zero_crossings (data : List Pt) (label : String) (formatFn : ℚ → String) :
    (computeChartInference data label formatFn).zeroCrossings = specZeroCrossings data := by
  show (cciScan cciInit none data).crossings = specZeroCrossings data
  rw [cciScan_crossings data cciInit none, crossList_none_eq_spec]
  simp [cciInit]

/-- C4 counterexample: the pair `v₀ = 0, v₁ = 5` leaves zero, so the claim
as stated demands a recorded crossing (at position `x₀ = 0`); the code
records none. -/
theorem c4_cex :
    (computeChartInference [⟨0, 0⟩, ⟨1, 5⟩] "Shear Force" (fun v => toFixed v 2)).zeroCrossings
      = [] ∧ ((0 : ℚ) ≠ 5) := by
  constructor
  · show (cciScan cciInit none [⟨0, 0⟩, ⟨1, 5⟩]).crossings = []
    rw [cciScan_crossings _ cciInit none]
    norm_num [cciInit, crossList]
  · norm_num

-- ─── C9 ───────────────────────────────────────────────────────────────────────

/-- C9 (confirmed): `solveBeam` is a pure function of the `BeamConfig`
value — two invocations on the same input produce identical results in every
field, series element, inference and summary string. -/
theorem c9_deterministic : ∀ beam : BeamConfig, solveBeam beam = solveBeam beam :=
  fun _ => rfl

-- ─── Helper lemmas: support sort ──────────────────────────────────────────────

lemma length_insertS (s : Support) (l : List Support) :
    (insertS s l).length = l.length + 1 := by
  induction l with
  | nil => simp [insertS]
  | cons t ts ih => simp only [insertS]; split <;> simp [ih]

lemma mem_insertS (a s : Support) (l : List Support) :
    a ∈ insertS s l ↔ a = s ∨ a ∈ l := by
  induction l with
  | nil => simp [insertS]
  | cons t ts ih =>
    simp only [insertS]; split
    · simp [or_comm, or_assoc, or_left_comm]
    · simp [ih]; tauto

lemma length_sortByPosition (l : List Support) :
    (sortByPosition l).length = l.length := by
  induction l with
  | nil => rfl
  | cons s ss ih => simp [sortByPosition, length_insertS, ih]

lemma mem_sortByPosition (a : Support) (l : List Support) :
    a ∈ sortByPosition l ↔ a ∈ l := by
  induction l with
  | nil => simp [sortByPosition]
  | cons s ss ih => simp [sortByPosition, mem_insertS, ih]

-- ─── C1 ───────────────────────────────────────────────────────────────────────

/-- C1 (corrected): `solveReactions` returns the empty reaction set and the
diagnostic note exactly when the configuration has no fixed support and does
not have exactly two supports.  When any fixed support is present — even
alongside other supports — the cantilever closed form is applied instead, so
the original claim fails for a fixed support accompanied by two non-fixed
supports (see the counterexample). -/
theorem c1_unsolvable_iff (beam : BeamConfig) :
    ((solveReactions beam).1 = [] ∧ (solveReactions beam).2 = [unableStep]) ↔
      ((∀ s ∈ beam.supports, s.type ≠ SupportType.fixed) ∧ beam.supports.length ≠ 2) := by
  unfold solveReactions
  cases hf : (sortByPosition beam.supports).find? (fun s => s.type == SupportType.fixed) with
  | some f =>
    simp only [hf]
    apply iff_of_false
    · simp
    · intro h
      have hp := List.find?_some hf
      have hmem := List.mem_of_find?_eq_some hf
      exact h.1 f ((mem_sortByPosition f beam.supports).mp hmem) (by simpa using hp)
  | none =>
    simp only [hf]
    have hnofix : ∀ s ∈ beam.supports, s.type ≠ SupportType.fixed := by
      intro s hs
      have := List.find?_eq_none.mp hf s ((mem_sortByPosition s beam.supports).mpr hs)
      simpa using this
    have hlen := length_sortByPosition beam.supports
    cases hsort : sortByPosition beam.supports with
    | nil =>
      simp only [hsort]
      exact iff_of_true (by simp) ⟨hnofix, by rw [← hlen, hsort]; simp⟩
    | cons a t =>
      cases t with
      | nil =>
        simp only [hsort]
        exact iff_of_true (by simp) ⟨hnofix, by rw [← hlen, hsort]; simp⟩
      | cons b t2 =>
        cases t2 with
        | nil =>
          simp only [hsort]
          apply iff_of_false (by simp)
          intro h
          exact h.2 (by rw [← hlen, hsort]; simp)
        | cons c t3 =>
          simp only [hsort]
          exact iff_of_true (by simp) ⟨hnofix, by rw [← hlen, hsort]; simp⟩

/-- C1 counterexample: a fixed support accompanied by a pin and a roller
("two non-fixed plus a fixed"), for which the claim demands an empty
reaction set; the code applies the cantilever closed form and returns a
non-empty reaction set. -/
def c1cexBeam : BeamConfig :=
  { length := 6, E := 1, G := 1, I := 1, J := 1, depth := 1,
    supports := [⟨"F", .fixed, 0⟩, ⟨"B", .pin, 2⟩, ⟨"C", .roller, 4⟩],
    hinges := [], loads := [{ id := "P1", type := .point, position := 3, magnitude := 10 }],
    loadCombinations := [], units := UNIT_SYSTEMS .SI, gravity := 981 / 100 }

theorem c1_cex :
    (solveReactions c1cexBeam).1 = [("F", ⟨10, some 30, none⟩)] ∧
    (solveReactions c1cexBeam).1 ≠ [] := by
  have hsort : sortByPosition c1cexBeam.supports =
      [⟨"F", .fixed, 0⟩, ⟨"B", .pin, 2⟩, ⟨"C", .roller, 4⟩] := by
    norm_num [c1cexBeam, sortByPosition, insertS]
  have hmain : (solveReactions c1cexBeam).1 = [("F", ⟨10, some 30, none⟩)] := by
    unfold solveReactions
    rw [hsort]
    norm_num [List.find?, getTotalLoads, gtlLoadFyM, c1cexBeam, List.foldl]
  exact ⟨hmain, by rw [hmain]; simp⟩

-- ─── C3 ───────────────────────────────────────────────────────────────────────

/-- C3 (corrected): in both UVL reductions the centroid formula is selected
exactly when the denominator exceeds `1e-12` and the midpoint fallback is
selected whenever the denominator is at most `1e-12` — including denominators
far below zero, which the original claim assigned to the centroid formula —
and a degenerate UVL with `w1 = w2 = 0` contributes zero resultant force,
zero shear and zero moment, with the guard preventing any division by the
zero denominator. -/
theorem c3_uvl_guard :
    (∀ fp a b w1 w2 : ℚ, b - a > 0 →
      ((w1 + w2 > eps12 →
          gtlLoadFyM fp (mkUVL a b w1 w2) =
            ((w1 + w2) / 2 * (b - a),
             (w1 + w2) / 2 * (b - a) *
               ((a + (b - a) / 3 * ((w1 + 2 * w2) / (w1 + w2))) - fp))) ∧
       (w1 + w2 ≤ eps12 →
          gtlLoadFyM fp (mkUVL a b w1 w2) =
            ((w1 + w2) / 2 * (b - a),
             (w1 + w2) / 2 * (b - a) * ((a + (b - a) / 2) - fp))))) ∧
    (∀ bl x a b w1 w2 u wx : ℚ, x ≥ a → b - a > 0 →
      u = min x b - a → wx = w1 + (w2 - w1) * (u / (b - a)) →
      ((w1 + wx > eps12 →
          loadVM bl x (mkUVL a b w1 w2) =
            (-((w1 + wx) / 2 * u),
             -((w1 + wx) / 2 * u) * (x - (a + u / 3 * ((w1 + 2 * wx) / (w1 + wx)))))) ∧
       (w1 + wx ≤ eps12 →
          loadVM bl x (mkUVL a b w1 w2) =
            (-((w1 + wx) / 2 * u),
             -((w1 + wx) / 2 * u) * (x - (a + u / 2)))))) ∧
    (∀ bl x fp a b : ℚ,
      gtlLoadFyM fp (mkUVL a b 0 0) = (0, 0) ∧ loadVM bl x (mkUVL a b 0 0) = (0, 0)) := by
  refine ⟨?_, ?_, ?_⟩
  · intro fp a b w1 w2 hL
    constructor
    · intro hg
      simp only [gtlLoadFyM, mkUVL, Option.getD_some]
      rw [if_pos hL, if_pos hg]
    · intro hg
      simp only [gtlLoadFyM, mkUVL, Option.getD_some]
      rw [if_pos hL, if_neg (not_lt.mpr hg)]
  · intro bl x a b w1 w2 u wx hx hL hu hwx
    subst hu hwx
    constructor
    · intro hg
      simp only [loadVM, mkUVL, Option.getD_some]
      rw [if_pos ⟨hx, hL⟩, if_pos hg]
    · intro hg
      simp only [loadVM, mkUVL, Option.getD_some]
      rw [if_pos ⟨hx, hL⟩, if_neg (not_lt.mpr hg)]
  · intro bl x fp a b
    constructor
    · simp only [gtlLoadFyM, mkUVL, Option.getD_some]
      split_ifs with h1 h2 <;> norm_num [eps12]
    · simp only [loadVM, mkUVL, Option.getD_some]
      split_ifs with h1 h2 <;> norm_num

/-- C3 counterexample: a UVL with `w1 = −4, w2 = 0` over `[0, 3]`.  The
denominator `−4` is far outside the `1e-12` tolerance of zero, so the claim
prescribes the centroid formula (giving moment `−6` about the origin); the
code takes the midpoint fallback because `−4 > 1e-12` is false, giving
moment `−9`. -/
theorem c3_cex :
    |(-4 : ℚ) + 0| > eps12 ∧
    gtlLoadFyM 0 (mkUVL 0 3 (-4) 0) = (-6, -9) ∧
    (-6 : ℚ) * (0 + (3 - 0) / 3 * (((-4) + 2 * 0) / ((-4) + 0)) - 0) = -6 ∧
    ((-9 : ℚ) ≠ -6) := by
  refine ⟨by norm_num [eps12], ?_, by norm_num, by norm_num⟩
  simp only [gtlLoadFyM, mkUVL, Option.getD_some]
  norm_num [eps12]

theorem c3_witness :
    ((3 : ℚ) - 0 > 0 ∧ (2 : ℚ) + 2 > eps12) ∧
    gtlLoadFyM 0 (mkUVL 0 3 2 2) =
      ((2 + 2) / 2 * (3 - 0),
       (2 + 2) / 2 * (3 - 0) * ((0 + (3 - 0) / 3 * ((2 + 2 * 2) / (2 + 2))) - 0)) :=
  ⟨⟨by norm_num, by norm_num [eps12]⟩,
    (c3_uvl_guard.1 0 0 3 2 2 (by norm_num)).1 (by norm_num [eps12])⟩

-- ─── C10 ──────────────────────────────────────────────────────────────────────

/-- Beam exercising the mismatched `endPosition` defaults: one fixed support
and a single UDL whose `endPosition` is absent. -/
def c10Beam : BeamConfig :=
  { length := 10, E := 1, G := 1, I := 1, J := 1, depth := 1,
    supports := [⟨"F", .fixed, 0⟩], hinges := [],
    loads := [{ id := "W", type := .udl, position := 0, magnitude := 5 }],
    loadCombinations := [], units := UNIT_SYSTEMS .SI, gravity := 981 / 100 }

/-- C10 (confirmed): for a UDL without an `endPosition`, the reaction
reduction defaults the span end to the start position (zero span, zero
resultant and moment) while the left-of-cut integrator defaults it to the
beam length; consequently on `c10Beam` the computed reactions are zero and
are not injected, yet the sampled shear reaches `−50` at the last station —
the reactions do not balance the effective loads used for `V(x)`. -/
theorem c10_udl_default_mismatch :
    (∀ (fp : ℚ) (l : Load), l.type = LoadType.udl → l.endPosition = none →
        gtlLoadFyM fp l = (0, 0)) ∧
    (∀ (bl x : ℚ) (l : Load), l.type = LoadType.udl → l.endPosition = none →
        loadVM bl x l = loadVM bl x { l with endPosition := some bl }) ∧
    ((solveBeam c10Beam).reactions = [("F", ⟨0, some 0, none⟩)] ∧
      (solveBeam c10Beam).shearForce[500]? = some ⟨10, -50⟩ ∧
      (((solveBeam c10Beam).reactions.map (fun pr => pr.2.Fy)).sum = 0 ∧ ((-50 : ℚ) ≠ 0))) := by
  have hre : (solveReactions c10Beam).1 = [("F", ⟨0, some 0, none⟩)] := by
    have hsort : sortByPosition c10Beam.supports = [⟨"F", .fixed, 0⟩] := by
      norm_num [c10Beam, sortByPosition, insertS]
    unfold solveReactions
    rw [hsort]
    norm_num [List.find?, getTotalLoads, gtlLoadFyM, c10Beam, List.foldl]
  have heff : effLoads c10Beam = [{ id := "W", type := .udl, position := 0, magnitude := 5 }] := by
    unfold effLoads
    rw [hre]
    norm_num [buildAllLoads, c10Beam, List.find?, eps10]
  refine ⟨?_, ?_, ?_, ?_, ?_, by norm_num⟩
  · intro fp l ht he
    simp only [gtlLoadFyM, ht, he, Option.getD_none]
    norm_num
  · intro bl x l ht he
    simp only [loadVM, ht, he, Option.getD_none, Option.getD_some]
  · exact hre
  · rw [solveBeam_shearForce]
    unfold shearForceSeries
    rw [List.getElem?_map, List.getElem?_range (by norm_num [points])]
    rw [heff]
    norm_num [stationVM, loadVM, List.foldl, dx, points, c10Beam]
  · rw [solveBeam_reactions, hre]; simp

/-- UDL without an end position, for the C10 witness. -/
def c10wLoad : Load := { id := "w", type := LoadType.udl, position := 3, magnitude := 5 }

theorem c10_witness :
    gtlLoadFyM 0 c10wLoad = (0, 0) ∧
    loadVM 10 7 c10wLoad = loadVM 10 7 { c10wLoad with endPosition := some 10 } :=
  ⟨c10_udl_default_mismatch.1 0 c10wLoad rfl rfl,
    c10_udl_default_mismatch.2.1 10 7 c10wLoad rfl rfl⟩

-- ─── Helper lemmas: load-resultant sums ───────────────────────────────────────

lemma foldl_pair_add (f g : Load → ℚ) (loads : List Load) :
    ∀ a b : ℚ,
      loads.foldl (fun acc l => (acc.1 + f l, acc.2 + g l)) (a, b) =
        (a + (loads.map f).sum, b + (loads.map g).sum) := by
  induction loads with
  | nil => intro a b; simp
  | cons l ls ih => intro a b; simp [ih, add_assoc]

lemma getTotalLoads_sums (loads : List Load) (fixedPos : ℚ) :
    (getTotalLoads loads fixedPos).1 =
      ((loads.map (fun l => (gtlLoadFyM fixedPos l).1)).sum,
       (loads.map (fun l => (gtlLoadFyM fixedPos l).2)).sum) := by
  unfold getTotalLoads
  rw [foldl_pair_add]
  simp

-- ─── C2 ───────────────────────────────────────────────────────────────────────

/-- C2 (confirmed): for a solvable configuration (a single fixed support, or
exactly two non-fixed supports) whose UVL loads have non-inverted spans, the
sum of the computed reaction vertical forces equals the sum of the vertical
resultants of the applied loads (point `P`, UDL `w·ℓ`, UVL `((w1+w2)/2)·ℓ`),
so reactions and applied loads cancel exactly. -/
theorem c2_equilibrium (beam : BeamConfig)
    (hsolv : (beam.supports.length = 1 ∧ ∀ s ∈ beam.supports, s.type = SupportType.fixed) ∨
             (beam.supports.length = 2 ∧ ∀ s ∈ beam.supports, s.type ≠ SupportType.fixed))
    (hend : ∀ l ∈ beam.loads, (l.type = LoadType.udl ∨ l.type = LoadType.uvl) →
        ∃ e, l.endPosition = some e ∧ l.position ≤ e) :
    (((solveReactions beam).1.map (fun pr => pr.2.Fy)).sum) =
      (beam.loads.map appliedVerticalResultant).sum := by
  have hres : ∀ l ∈ beam.loads, ∀ fp : ℚ,
      (gtlLoadFyM fp l).1 = appliedVerticalResultant l := by
    intro l hl fp
    rcases hty : l.type with _ | _ | _ | _ | _ <;>
      simp only [gtlLoadFyM, appliedVerticalResultant, hty]
    rcases hend l hl (Or.inr hty) with ⟨e, he, hle⟩
    rw [he]
    simp only [Option.getD_some]
    rcases lt_or_eq_of_le hle with hlt | heq
    · rw [if_pos (by linarith)]
    · rw [if_neg (by rw [← heq]; simp), ← heq]
      ring
  have hFy : ∀ fp : ℚ, (getTotalLoads beam.loads fp).1.1 =
      (beam.loads.map appliedVerticalResultant).sum := by
    intro fp
    rw [getTotalLoads_sums]
    exact congrArg List.sum (List.map_congr_left (fun l hl => hres l hl fp))
  rcases hsolv with ⟨hlen, hfix⟩ | ⟨hlen, hnfix⟩
  · rcases List.length_eq_one.mp hlen with ⟨s, hs⟩
    have hsort : sortByPosition beam.supports = [s] := by
      rw [hs]; rfl
    have hsfix : (s.type == SupportType.fixed) = true := by
      have := hfix s (by rw [hs]; simp)
      simp [this]
    unfold solveReactions
    rw [hsort]
    simp only [List.find?, hsfix]
    simpa using hFy s.position
  · have hlen2 : (sortByPosition beam.supports).length = 2 := by
      rw [length_sortByPosition]; exact hlen
    rcases List.length_eq_two.mp hlen2 with ⟨s1, s2, hsort⟩
    have hs1 : (s1.type == SupportType.fixed) = false := by
      have := hnfix s1 ((mem_sortByPosition s1 beam.supports).mp (by rw [hsort]; simp))
      simpa using this
    have hs2 : (s2.type == SupportType.fixed) = false := by
      have := hnfix s2 ((mem_sortByPosition s2 beam.supports).mp (by rw [hsort]; simp))
      simpa using this
    unfold solveReactions
    rw [hsort]
    simp only [List.find?, hs1, hs2, List.map_cons, List.map_nil, List.sum_cons, List.sum_nil]
    rw [← hFy s1.position]
    ring

/-- Concrete solvable beam for the equilibrium witness: two non-fixed
supports, one point load, one UDL, one UVL and one applied moment. -/
def c2wBeam : BeamConfig :=
  { length := 4, E := 1, G := 1, I := 1, J := 1, depth := 1,
    supports := [⟨"A", .pin, 0⟩, ⟨"B", .roller, 4⟩], hinges := [],
    loads := [{ id := "P", type := .point, position := 1, magnitude := 10 },
      { id := "W", type := .udl, position := 1, magnitude := 2, endPosition := some 3 },
      { id := "V", type := .uvl, position := 0, magnitude := 1, endMagnitude := some 3,
        endPosition := some 2 },
      { id := "M", type := .moment, position := 2, magnitude := 5 }],
    loadCombinations := [], units := UNIT_SYSTEMS .SI, gravity := 981 / 100 }

theorem c2_equilibrium_witness :
    ((c2wBeam.supports.length = 2 ∧ ∀ s ∈ c2wBeam.supports, s.type ≠ SupportType.fixed) ∧
      (∀ l ∈ c2wBeam.loads, (l.type = LoadType.udl ∨ l.type = LoadType.uvl) →
        ∃ e, l.endPosition = some e ∧ l.position ≤ e)) ∧
    (((solveReactions c2wBeam).1.map (fun pr => pr.2.Fy)).sum) =
      (c2wBeam.loads.map appliedVerticalResultant).sum := by
  have h1 : c2wBeam.supports.length = 2 ∧ ∀ s ∈ c2wBeam.supports, s.type ≠ SupportType.fixed := by
    constructor
    · rfl
    · intro s hs
      simp only [c2wBeam, List.mem_cons, List.not_mem_nil, or_false] at hs
      rcases hs with rfl | rfl <;> simp
  have h2 : ∀ l ∈ c2wBeam.loads, (l.type = LoadType.udl ∨ l.type = LoadType.uvl) →
      ∃ e, l.endPosition = some e ∧ l.position ≤ e := by
    intro l hl hty
    simp only [c2wBeam, List.mem_cons, List.not_mem_nil, or_false] at hl
    rcases hl with rfl | rfl | rfl | rfl
    · simp at hty
    · exact ⟨3, rfl, by norm_num⟩
    · exact ⟨2, rfl, by norm_num⟩
    · simp at hty
  exact ⟨⟨h1, h2⟩, c2_equilibrium c2wBeam (Or.inr h1) h2⟩

/-- Support-free beam for the C1 witness (no fixed support, not two
supports), which the amended claim sends to the empty-reactions branch. -/
def c1wBeam : BeamConfig :=
  { length := 5, E := 1, G := 1, I := 1, J := 1, depth := 1,
    supports := [], hinges := [],
    loads := [{ id := "P1", type := .point, position := 2, magnitude := 7 }],
    loadCombinations := [], units := UNIT_SYSTEMS .SI, gravity := 981 / 100 }

theorem c1_witness :
    (solveReactions c1wBeam).1 = [] ∧ (solveReactions c1wBeam).2 = [unableStep] :=
  (c1_unsolvable_iff c1wBeam).mpr ⟨by simp [c1wBeam], by simp [c1wBeam]⟩

-- ─── Helper lemmas: torsion ───────────────────────────────────────────────────

lemma foldl_torque (x : ℚ) (ls : List Load) :
    ∀ c : ℚ,
      ls.foldl (fun acc l => if x ≥ l.position then acc + l.magnitude else acc) c =
        c + ((ls.filter (fun l => decide (l.position ≤ x))).map Load.magnitude).sum := by
  induction ls with
  | nil => intro c; simp
  | cons l ls ih =>
    intro c
    by_cases h : l.position ≤ x
    · simp only [List.foldl_cons, if_pos (ge_iff_le.mpr h), List.filter_cons,
        decide_eq_true h, ih]
      simp [add_assoc]
    · simp only [List.foldl_cons, if_neg (fun hx => h (ge_iff_le.mp hx)), List.filter_cons,
        decide_eq_false h, ih]
      simp

lemma torqueAt_eq (beam : BeamConfig) (x : ℚ) :
    torqueAt beam x = txReact beam +
      (((torqueLoadsOf beam).filter (fun l => decide (l.position ≤ x))).map Load.magnitude).sum := by
  unfold torqueAt
  rw [foldl_torque]

lemma txReact_eq (beam : BeamConfig) :
    txReact beam =
      if ∃ s ∈ beam.supports, s.type = SupportType.fixed ∧ s.position = 0 then
        -(((torqueLoadsOf beam).map Load.magnitude).sum)
      else 0 := by
  unfold txReact
  cases hf : beam.supports.find? (fun s => s.type == SupportType.fixed && s.position == 0) with
  | some s =>
    rw [if_pos]
    have hp := List.find?_some hf
    have hmem := List.mem_of_find?_eq_some hf
    exact ⟨s, hmem, by simpa using hp⟩
  | none =>
    rw [if_neg]
    rintro ⟨s, hmem, ht, hp⟩
    have := List.find?_eq_none.mp hf s hmem
    simp [ht, hp] at this

-- ─── C6 ───────────────────────────────────────────────────────────────────────

/-- C6 (confirmed): with no torque loads the angle-of-twist series is
identically zero at all 501 stations and the torsion flag is false; with
torque loads present, φ(0) = 0 and φ advances by `(T(x_i)/(G·J))·dx` per
station, where `T(x)` is the reaction torque plus the torque loads at
positions `≤ x`, and the reaction torque is `−Σ torque` exactly when a fixed
support sits at position 0 and `0` otherwise. -/
theorem c6_torsion (beam : BeamConfig) :
    ((torqueLoadsOf beam) = [] →
      (solveBeam beam).hasTorsion = false ∧
      (solveBeam beam).angleOfTwist.length = points + 1 ∧
      ∀ pt ∈ (solveBeam beam).angleOfTwist, pt.value = 0) ∧
    ((torqueLoadsOf beam) ≠ [] →
      (solveBeam beam).hasTorsion = true ∧
      (solveBeam beam).angleOfTwist[0]? = some ⟨0, 0⟩ ∧
      (∀ i : ℕ, i < points → ∀ pi pj : Pt,
        (solveBeam beam).angleOfTwist[i]? = some pi →
        (solveBeam beam).angleOfTwist[i + 1]? = some pj →
        pj.value = pi.value +
          ((if ∃ s ∈ beam.supports, s.type = SupportType.fixed ∧ s.position = 0 then
              -(((torqueLoadsOf beam).map Load.magnitude).sum)
            else 0) +
            (((torqueLoadsOf beam).filter (fun l => decide (l.position ≤ pj.x))).map
              Load.magnitude).sum) / (beam.G * beam.J) * dx beam)) := by
  constructor
  · intro hemp
    rw [solveBeam_hasTorsion, solveBeam_angleOfTwist]
    unfold angleOfTwistSeries
    rw [hemp]
    refine ⟨by simp, by simp, ?_⟩
    intro pt hpt
    simp only [List.length_nil, gt_iff_lt, lt_irrefl, if_false, List.mem_map] at hpt
    obtain ⟨i, _, rfl⟩ := hpt
    rfl
  · intro hne
    have hlen : (torqueLoadsOf beam).length > 0 := List.length_pos.mpr hne
    rw [solveBeam_hasTorsion, solveBeam_angleOfTwist]
    unfold angleOfTwistSeries
    rw [if_pos hlen]
    refine ⟨by simp [hlen], ?_, ?_⟩
    · rw [List.getElem?_map, List.getElem?_range (by norm_num [points])]
      simp [twistPhi]
    · intro i hi pi pj hpi hpj
      rw [List.getElem?_map, List.getElem?_range (by omega)] at hpi
      rw [List.getElem?_map, List.getElem?_range (by omega)] at hpj
      simp only [Option.map_some', Option.some.injEq] at hpi hpj
      subst hpi hpj
      show twistPhi beam (i + 1) = _
      rw [show twistPhi beam (i + 1) = twistPhi beam i +
        (torqueAt beam (((i + 1 : ℕ) : ℚ) * dx beam) / (beam.G * beam.J)) * dx beam from rfl]
      rw [torqueAt_eq, txReact_eq]

/-- Torque-loaded cantilever for the C6 witness. -/
def c6wBeam : BeamConfig :=
  { length := 1, E := 1, G := 1, I := 1, J := 1, depth := 1,
    supports := [⟨"F", .fixed, 0⟩], hinges := [],
    loads := [{ id := "T", type := .torque, position := 0, magnitude := 2 }],
    loadCombinations := [], units := UNIT_SYSTEMS .SI, gravity := 981 / 100 }

theorem c6_torsion_witness :
    torqueLoadsOf c6wBeam ≠ [] ∧
    (solveBeam c6wBeam).hasTorsion = true ∧
    (solveBeam c6wBeam).angleOfTwist[0]? = some ⟨0, 0⟩ := by
  have hne : torqueLoadsOf c6wBeam ≠ [] := by
    simp [torqueLoadsOf, c6wBeam, List.filter]
  have h := (c6_torsion c6wBeam).2 hne
  exact ⟨hne, h.1, h.2.1⟩

-- ─── C7 ───────────────────────────────────────────────────────────────────────

/-- C7 (confirmed): with no fixed support but at least two supports, the
integration constants come from the two lowest-position supports at the
stations nearest their positions, `C1 = −(D(x_b) − D(x_a))/(p_B − p_A)` and
`C2 = −D(x_a) − C1·p_A`, and every slope/deflection station value is
`(S(x_i) + C1)/(E·I)` resp. `(D(x_i) + C1·x_i + C2)/(E·I)`; with neither a
fixed support nor two supports, both series are identically zero. -/
theorem c7_deflection (beam : BeamConfig)
    (hnf : beam.supports.find? (fun s => s.type == SupportType.fixed) = none) :
    (∀ sA sB rest, sortByPosition beam.supports = sA :: sB :: rest →
      ∀ i : ℕ, i ≤ points →
        (solveBeam beam).slope[i]? = some ⟨(i : ℚ) * dx beam,
          (slopeEIseq beam i +
            -(dPartialSeq beam (nearestStation beam sB.position) -
                dPartialSeq beam (nearestStation beam sA.position)) /
              (sB.position - sA.position)) / (beam.E * beam.I)⟩ ∧
        (solveBeam beam).deflection[i]? = some ⟨(i : ℚ) * dx beam,
          (dPartialSeq beam i +
            -(dPartialSeq beam (nearestStation beam sB.position) -
                dPartialSeq beam (nearestStation beam sA.position)) /
              (sB.position - sA.position) * ((i : ℚ) * dx beam) +
            (-(dPartialSeq beam (nearestStation beam sA.position)) -
              -(dPartialSeq beam (nearestStation beam sB.position) -
                  dPartialSeq beam (nearestStation beam sA.position)) /
                (sB.position - sA.position) * sA.position)) / (beam.E * beam.I)⟩) ∧
    (beam.supports.length < 2 →
      (∀ pt ∈ (solveBeam beam).slope, pt.value = 0) ∧
      (∀ pt ∈ (solveBeam beam).deflection, pt.value = 0)) := by
  constructor
  · intro sA sB rest hsort i hi
    rw [solveBeam_slope, solveBeam_deflection]
    unfold slopeDeflSeries
    rw [hnf, hsort]
    constructor
    · rw [List.getElem?_map, List.getElem?_range (by omega)]
      rfl
    · rw [List.getElem?_map, List.getElem?_range (by omega)]
      rfl
  · intro hlt
    rw [solveBeam_slope, solveBeam_deflection]
    unfold slopeDeflSeries
    rw [hnf]
    have hlen : (sortByPosition beam.supports).length < 2 := by
      rw [length_sortByPosition]; exact hlt
    cases hsort : sortByPosition beam.supports with
    | nil =>
      constructor <;> intro pt hpt <;>
        · dsimp only at hpt
          simp only [List.mem_map, List.mem_range] at hpt
          obtain ⟨j, _, rfl⟩ := hpt
          rfl
    | cons a t =>
      cases t with
      | nil =>
        constructor <;> intro pt hpt <;>
          · dsimp only at hpt
            simp only [List.mem_map, List.mem_range] at hpt
            obtain ⟨j, _, rfl⟩ := hpt
            rfl
      | cons b t2 =>
        rw [hsort] at hlen
        simp at hlen
        omega

/-- Two simple supports and no loads, for the C7 witness. -/
def c7wBeam : BeamConfig :=
  { length := 1, E := 1, G := 1, I := 1, J := 1, depth := 1,
    supports := [⟨"A", .pin, 0⟩, ⟨"B", .roller, 1⟩], hinges := [],
    loads := [], loadCombinations := [], units := UNIT_SYSTEMS .SI, gravity := 981 / 100 }

theorem c7_deflection_witness :
    (c7wBeam.supports.find? (fun s => s.type == SupportType.fixed) = none) ∧
    (solveBeam c7wBeam).deflection[3]? = some ⟨3 / 500, 0⟩ := by
  have hnf : c7wBeam.supports.find? (fun s => s.type == SupportType.fixed) = none := rfl
  have hsort : sortByPosition c7wBeam.supports = [⟨"A", .pin, 0⟩, ⟨"B", .roller, 1⟩] := by
    norm_num [c7wBeam, sortByPosition, insertS]
  have h := ((c7_deflection c7wBeam hnf).1 ⟨"A", .pin, 0⟩ ⟨"B", .roller, 1⟩ [] hsort 3
    (by norm_num [points])).2
  refine ⟨hnf, ?_⟩
  rw [h]
  have hPF : ((SupportType.pin == SupportType.fixed) = false) := rfl
  have hRF : ((SupportType.roller == SupportType.fixed) = false) := rfl
  have hAA : (("A" == "A") = true) := rfl
  have hBA : (("B" == "A") = false) := rfl
  have hAB : (("A" == "B") = false) := rfl
  have hBB : (("B" == "B") = true) := rfl
  have heff : effLoads c7wBeam = [] := by
    have hre : (solveReactions c7wBeam).1 =
        [("A", { Fy := 0, Mz := none, Tx := none }),
         ("B", { Fy := 0, Mz := none, Tx := none })] := by
      unfold solveReactions
      rw [hsort]
      norm_num [List.find?, getTotalLoads, gtlLoadFyM, c7wBeam, List.foldl, hPF, hRF]
    unfold effLoads
    rw [hre]
    norm_num [buildAllLoads, c7wBeam, List.find?, eps10, hAA, hBA, hAB, hBB]
  have hbm : ∀ j : ℕ, bmVal c7wBeam j = 0 := by
    intro j
    unfold bmVal
    rw [heff]
    simp [stationVM]
  have hS : ∀ j : ℕ, slopeEIseq c7wBeam j = 0 := by
    intro j
    induction j with
    | zero => rfl
    | succ k ih => unfold slopeEIseq; rw [ih, hbm, hbm]; ring
  have hD : ∀ j : ℕ, dPartialSeq c7wBeam j = 0 := by
    intro j
    induction j with
    | zero => rfl
    | succ k ih => unfold dPartialSeq; rw [ih, hS, hS]; ring
  simp only [hD]
  norm_num [dx, points, c7wBeam]

-- ─── Helper lemmas: running extremes of the scan ──────────────────────────────

/-- The max-tracking component of the scan in isolation. -/
def maxScan (s : Option ℚ × ℚ) : List Pt → Option ℚ × ℚ
  | [] => s
  | p :: rest => maxScan (if gtBot p.value s.1 then (some p.value, p.x) else s) rest

/-- The min-tracking component of the scan in isolation. -/
def minScan (s : Option ℚ × ℚ) : List Pt → Option ℚ × ℚ
  | [] => s
  | p :: rest => minScan (if ltTop p.value s.1 then (some p.value, p.x) else s) rest

lemma cciScan_maxsel (data : List Pt) :
    ∀ (st : CCIAcc) (prev : Option Pt),
      ((cciScan st prev data).maxVal, (cciScan st prev data).maxPos) =
        maxScan (st.maxVal, st.maxPos) data := by
  induction data with
  | nil => intro st prev; rfl
  | cons p rest ih =>
    intro st prev
    show ((cciScan (cciUpdate st prev p) (some p) rest).maxVal,
        (cciScan (cciUpdate st prev p) (some p) rest).maxPos) = _
    rw [ih]
    by_cases hc : gtBot p.value st.maxVal <;>
      simp [maxScan, cciUpdate, hc]

lemma cciScan_minsel (data : List Pt) :
    ∀ (st : CCIAcc) (prev : Option Pt),
      ((cciScan st prev data).minVal, (cciScan st prev data).minPos) =
        minScan (st.minVal, st.minPos) data := by
  induction data with
  | nil => intro st prev; rfl
  | cons p rest ih =>
    intro st prev
    show ((cciScan (cciUpdate st prev p) (some p) rest).minVal,
        (cciScan (cciUpdate st prev p) (some p) rest).minPos) = _
    rw [ih]
    by_cases hc : ltTop p.value st.minVal <;>
      simp [minScan, cciUpdate, hc]

lemma maxScan_spec (data : List Pt) :
    ∀ (m0 : Option ℚ) (x0 : ℚ),
      (maxScan (m0, x0) data = (m0, x0) ∧ ∀ q ∈ data, ∃ m, m0 = some m ∧ q.value ≤ m) ∨
      (∃ i : Fin data.length,
        maxScan (m0, x0) data = (some ((data.get i).value), (data.get i).x) ∧
        (∀ m, m0 = some m → m < (data.get i).value) ∧
        (∀ j : Fin data.length, (data.get j).value ≤ (data.get i).value) ∧
        (∀ j : Fin data.length, (j : ℕ) < (i : ℕ) →
          (data.get j).value < (data.get i).value)) := by
  induction data with
  | nil => intro m0 x0; left; exact ⟨rfl, by simp⟩
  | cons p rest ih =>
    intro m0 x0
    by_cases hc : gtBot p.value m0
    · have hm0 : ∀ m, m0 = some m → m < p.value := by
        intro m hm; subst hm; simpa [gtBot] using hc
      have hstep : maxScan (m0, x0) (p :: rest) = maxScan (some p.value, p.x) rest := by
        show maxScan (if gtBot p.value m0 then (some p.value, p.x) else (m0, x0)) rest = _
        rw [if_pos hc]
      rcases ih (some p.value) p.x with ⟨heq, hall⟩ | ⟨i, heq, hgt, hall, hfirst⟩
      · right
        refine ⟨⟨0, by simp⟩, ?_, ?_, ?_, ?_⟩
        · rw [hstep, heq]; rfl
        · exact hm0
        · rintro ⟨j, hj⟩
          cases j with
          | zero => simp
          | succ k =>
            have hk : k < rest.length := by simpa using hj
            have := hall (rest.get ⟨k, hk⟩) (List.get_mem rest k hk)
            rcases this with ⟨m, hm, hle⟩
            simp only [Option.some.injEq] at hm
            subst hm
            simpa [List.get_cons_succ] using hle
        · rintro ⟨j, hj⟩ hlt
          simp at hlt
      · right
        refine ⟨⟨(i : ℕ) + 1, by simp⟩, ?_, ?_, ?_, ?_⟩
        · rw [hstep, heq]; rfl
        · intro m hm
          exact lt_trans (hm0 m hm) (hgt p.value rfl)
        · rintro ⟨j, hj⟩
          cases j with
          | zero =>
            simpa using le_of_lt (hgt p.value rfl)
          | succ k =>
            have hk : k < rest.length := by simpa using hj
            simpa using hall ⟨k, hk⟩
        · rintro ⟨j, hj⟩ hlt
          cases j with
          | zero => simpa using hgt p.value rfl
          | succ k =>
            have hk : k < rest.length := by simpa using hj
            have hki : k < (i : ℕ) := by simpa using hlt
            simpa using hfirst ⟨k, hk⟩ hki
    · have hm0 : ∃ m, m0 = some m ∧ p.value ≤ m := by
        cases m0 with
        | none => simp [gtBot] at hc
        | some m =>
          refine ⟨m, rfl, ?_⟩
          have := hc
          simp only [gtBot, decide_eq_true_eq] at this
          exact le_of_not_lt this
      obtain ⟨m, hmeq, hpm⟩ := hm0
      have hstep : maxScan (m0, x0) (p :: rest) = maxScan (m0, x0) rest := by
        show maxScan (if gtBot p.value m0 then (some p.value, p.x) else (m0, x0)) rest = _
        rw [if_neg hc]
      rcases ih m0 x0 with ⟨heq, hall⟩ | ⟨i, heq, hgt, hall, hfirst⟩
      · left
        refine ⟨by rw [hstep, heq], ?_⟩
        intro q hq
        rcases List.mem_cons.mp hq with rfl | hq2
        · exact ⟨m, hmeq, hpm⟩
        · exact hall q hq2
      · right
        refine ⟨⟨(i : ℕ) + 1, by simp⟩, ?_, ?_, ?_, ?_⟩
        · rw [hstep, heq]; rfl
        · intro m2 hm2
          exact hgt m2 hm2
        · rintro ⟨j, hj⟩
          cases j with
          | zero =>
            have := hgt m hmeq
            simpa using le_of_lt (lt_of_le_of_lt hpm this)
          | succ k =>
            have hk : k < rest.length := by simpa using hj
            simpa using hall ⟨k, hk⟩
        · rintro ⟨j, hj⟩ hlt
          cases j with
          | zero =>
            have := hgt m hmeq
            simpa using lt_of_le_of_lt hpm this
          | succ k =>
            have hk : k < rest.length := by simpa using hj
            have hki : k < (i : ℕ) := by simpa using hlt
            simpa using hfirst ⟨k, hk⟩ hki

lemma minScan_spec (data : List Pt) :
    ∀ (m0 : Option ℚ) (x0 : ℚ),
      (minScan (m0, x0) data = (m0, x0) ∧ ∀ q ∈ data, ∃ m, m0 = some m ∧ m ≤ q.value) ∨
      (∃ i : Fin data.length,
        minScan (m0, x0) data = (some ((data.get i).value), (data.get i).x) ∧
        (∀ m, m0 = some m → (data.get i).value < m) ∧
        (∀ j : Fin data.length, (data.get i).value ≤ (data.get j).value) ∧
        (∀ j : Fin data.length, (j : ℕ) < (i : ℕ) →
          (data.get i).value < (data.get j).value)) := by
  induction data with
  | nil => intro m0 x0; left; exact ⟨rfl, by simp⟩
  | cons p rest ih =>
    intro m0 x0
    by_cases hc : ltTop p.value m0
    · have hm0 : ∀ m, m0 = some m → p.value < m := by
        intro m hm; subst hm; simpa [ltTop] using hc
      have hstep : minScan (m0, x0) (p :: rest) = minScan (some p.value, p.x) rest := by
        show minScan (if ltTop p.value m0 then (some p.value, p.x) else (m0, x0)) rest = _
        rw [if_pos hc]
      rcases ih (some p.value) p.x with ⟨heq, hall⟩ | ⟨i, heq, hgt, hall, hfirst⟩
      · right
        refine ⟨⟨0, by simp⟩, ?_, ?_, ?_, ?_⟩
        · rw [hstep, heq]; rfl
        · exact hm0
        · rintro ⟨j, hj⟩
          cases j with
          | zero => simp
          | succ k =>
            have hk : k < rest.length := by simpa using hj
            have := hall (rest.get ⟨k, hk⟩) (List.get_mem rest k hk)
            rcases this with ⟨m, hm, hle⟩
            simp only [Option.some.injEq] at hm
            subst hm
            simpa [List.get_cons_succ] using hle
        · rintro ⟨j, hj⟩ hlt
          simp at hlt
      · right
        refine ⟨⟨(i : ℕ) + 1, by simp⟩, ?_, ?_, ?_, ?_⟩
        · rw [hstep, heq]; rfl
        · intro m hm
          exact lt_trans (hgt p.value rfl) (hm0 m hm)
        · rintro ⟨j, hj⟩
          cases j with
          | zero =>
            simpa using le_of_lt (hgt p.value rfl)
          | succ k =>
            have hk : k < rest.length := by simpa using hj
            simpa using hall ⟨k, hk⟩
        · rintro ⟨j, hj⟩ hlt
          cases j with
          | zero => simpa using hgt p.value rfl
          | succ k =>
            have hk : k < rest.length := by simpa using hj
            have hki : k < (i : ℕ) := by simpa using hlt
            simpa using hfirst ⟨k, hk⟩ hki
    · have hm0 : ∃ m, m0 = some m ∧ m ≤ p.value := by
        cases m0 with
        | none => simp [ltTop] at hc
        | some m =>
          refine ⟨m, rfl, ?_⟩
          have := hc
          simp only [ltTop, decide_eq_true_eq] at this
          exact le_of_not_lt this
      obtain ⟨m, hmeq, hpm⟩ := hm0
      have hstep : minScan (m0, x0) (p :: rest) = minScan (m0, x0) rest := by
        show minScan (if ltTop p.value m0 then (some p.value, p.x) else (m0, x0)) rest = _
        rw [if_neg hc]
      rcases ih m0 x0 with ⟨heq, hall⟩ | ⟨i, heq, hgt, hall, hfirst⟩
      · left
        refine ⟨by rw [hstep, heq], ?_⟩
        intro q hq
        rcases List.mem_cons.mp hq with rfl | hq2
        · exact ⟨m, hmeq, hpm⟩
        · exact hall q hq2
      · right
        refine ⟨⟨(i : ℕ) + 1, by simp⟩, ?_, ?_, ?_, ?_⟩
        · rw [hstep, heq]; rfl
        · intro m2 hm2
          exact hgt m2 hm2
        · rintro ⟨j, hj⟩
          cases j with
          | zero =>
            have := hgt m hmeq
            simpa using le_of_lt (lt_of_lt_of_le this hpm)
          | succ k =>
            have hk : k < rest.length := by simpa using hj
            simpa using hall ⟨k, hk⟩
        · rintro ⟨j, hj⟩ hlt
          cases j with
          | zero =>
            have := hgt m hmeq
            simpa using lt_of_lt_of_le this hpm
          | succ k =>
            have hk : k < rest.length := by simpa using hj
            have hki : k < (i : ℕ) := by simpa using hlt
            simpa using hfirst ⟨k, hk⟩ hki

-- ─── C8 ───────────────────────────────────────────────────────────────────────

/-- C8 (confirmed): for every non-empty series the reported maximum
(resp. minimum) value and position belong to the first station attaining the
extreme — every station attains at most that value (resp. at least), and
every earlier station is strictly below (resp. above) it, so later equal
values never overwrite the recorded extreme. -/
theorem c8_extremes_first (data : List Pt) (label : String) (formatFn : ℚ → String)
    (h : data ≠ []) :
    (∃ i : Fin data.length,
      (computeChartInference data label formatFn).maxValue = some ((data.get i).value) ∧
      (computeChartInference data label formatFn).maxPosition = (data.get i).x ∧
      (∀ j : Fin data.length, (data.get j).value ≤ (data.get i).value) ∧
      (∀ j : Fin data.length, (j : ℕ) < (i : ℕ) →
        (data.get j).value < (data.get i).value)) ∧
    (∃ k : Fin data.length,
      (computeChartInference data label formatFn).minValue = some ((data.get k).value) ∧
      (computeChartInference data label formatFn).minPosition = (data.get k).x ∧
      (∀ j : Fin data.length, (data.get k).value ≤ (data.get j).value) ∧
      (∀ j : Fin data.length, (j : ℕ) < (k : ℕ) →
        (data.get k).value < (data.get j).value)) := by
  obtain ⟨q, hq⟩ := List.exists_mem_of_ne_nil data h
  constructor
  · have hproj := cciScan_maxsel data cciInit none
    rcases maxScan_spec data none 0 with ⟨_, hall⟩ | ⟨i, heq, _, hall, hfirst⟩
    · obtain ⟨m, hm, _⟩ := hall q hq
      exact absurd hm (by simp)
    · refine ⟨i, ?_, ?_, hall, hfirst⟩
      · show (cciScan cciInit none data).maxVal = _
        have := congrArg Prod.fst (hproj.trans heq)
        simpa [cciInit] using this
      · show (cciScan cciInit none data).maxPos = _
        have := congrArg Prod.snd (hproj.trans heq)
        simpa [cciInit] using this
  · have hproj := cciScan_minsel data cciInit none
    rcases minScan_spec data none 0 with ⟨_, hall⟩ | ⟨k, heq, _, hall, hfirst⟩
    · obtain ⟨m, hm, _⟩ := hall q hq
      exact absurd hm (by simp)
    · refine ⟨k, ?_, ?_, hall, hfirst⟩
      · show (cciScan cciInit none data).minVal = _
        have := congrArg Prod.fst (hproj.trans heq)
        simpa [cciInit] using this
      · show (cciScan cciInit none data).minPos = _
        have := congrArg Prod.snd (hproj.trans heq)
        simpa [cciInit] using this

/-- Series with a tied maximum (stations 1 and 2 both at value 3), for the
C8 witness. -/
def c8data : List Pt := [⟨0, 1⟩, ⟨1, 3⟩, ⟨2, 3⟩]

theorem c8_extremes_first_witness :
    c8data ≠ [] ∧
    ((∃ i : Fin c8data.length,
      (computeChartInference c8data "V" (fun v => toFixed v 2)).maxValue =
        some ((c8data.get i).value) ∧
      (computeChartInference c8data "V" (fun v => toFixed v 2)).maxPosition =
        (c8data.get i).x ∧
      (∀ j : Fin c8data.length, (c8data.get j).value ≤ (c8data.get i).value) ∧
      (∀ j : Fin c8data.length, (j : ℕ) < (i : ℕ) →
        (c8data.get j).value < (c8data.get i).value)) ∧
    (∃ k : Fin c8data.length,
      (computeChartInference c8data "V" (fun v => toFixed v 2)).minValue =
        some ((c8data.get k).value) ∧
      (computeChartInference c8data "V" (fun v => toFixed v 2)).minPosition =
        (c8data.get k).x ∧
      (∀ j : Fin c8data.length, (c8data.get k).value ≤ (c8data.get j).value) ∧
      (∀ j : Fin c8data.length, (j : ℕ) < (k : ℕ) →
        (c8data.get k).value < (c8data.get j).value))) :=
  ⟨by simp [c8data],
    c8_extremes_first c8data "V" (fun v => toFixed v 2) (by simp [c8data])⟩

-- ─── Helper lemmas: running |value| maximum ───────────────────────────────────

lemma runMaxAbs_eq_foldl_max (l : List Pt) :
    runMaxAbs l = l.foldl (fun m p => max m |p.value|) 0 := by
  unfold runMaxAbs
  congr 1
  funext m p
  by_cases h : |p.value| > m
  · rw [if_pos h, max_eq_right (le_of_lt h)]
  · rw [if_neg h, max_eq_left (le_of_not_lt h)]

lemma foldl_max_le (l : List Pt) :
    ∀ m0 c : ℚ, m0 ≤ c → (∀ pt ∈ l, |pt.value| ≤ c) →
      l.foldl (fun m p => max m |p.value|) m0 ≤ c := by
  induction l with
  | nil => intro m0 c h0 _; simpa using h0
  | cons p rest ih =>
    intro m0 c h0 hall
    simp only [List.foldl_cons]
    exact ih _ c (max_le h0 (hall p (by simp))) (fun pt hpt => hall pt (by simp [hpt]))

lemma le_foldl_max (l : List Pt) :
    ∀ m0 : ℚ, m0 ≤ l.foldl (fun m p => max m |p.value|) m0 := by
  induction l with
  | nil => intro m0; simp
  | cons p rest ih =>
    intro m0
    simp only [List.foldl_cons]
    exact le_trans (le_max_left m0 |p.value|) (ih _)

lemma mem_le_foldl_max (l : List Pt) :
    ∀ m0 : ℚ, ∀ pt ∈ l, |pt.value| ≤ l.foldl (fun m p => max m |p.value|) m0 := by
  induction l with
  | nil => intro m0 pt hpt; simp at hpt
  | cons p rest ih =>
    intro m0 pt hpt
    simp only [List.foldl_cons]
    rcases List.mem_cons.mp hpt with rfl | hpt2
    · exact le_trans (le_max_right m0 |pt.value|) (le_foldl_max rest _)
    · exact ih _ pt hpt2

lemma runMaxAbs_eq (l : List Pt) (c : ℚ) (hc : 0 ≤ c)
    (hall : ∀ pt ∈ l, |pt.value| ≤ c) (hex : ∃ pt ∈ l, |pt.value| = c) :
    runMaxAbs l = c := by
  rw [runMaxAbs_eq_foldl_max]
  refine le_antisymm (foldl_max_le l 0 c hc hall) ?_
  obtain ⟨pt, hpt, hval⟩ := hex
  calc c = |pt.value| := hval.symm
    _ ≤ _ := mem_le_foldl_max l 0 pt hpt

-- ─── C5 ───────────────────────────────────────────────────────────────────────

/-- Simply supported beam of length `L` with a single midspan point load `P`. -/
def ssMidBeam (P L : ℚ) : BeamConfig :=
  { length := L, E := 1, G := 1, I := 1, J := 1, depth := 1,
    supports := [⟨"A", .pin, 0⟩, ⟨"B", .roller, L⟩], hinges := [],
    loads := [{ id := "P1", type := .point, position := L / 2, magnitude := P }],
    loadCombinations := [], units := UNIT_SYSTEMS .SI, gravity := 981 / 100 }

lemma eps10_pos : (0 : ℚ) < eps10 := by norm_num [eps10]

lemma ssMid_sorted (P L : ℚ) (hL : 0 ≤ L) :
    sortByPosition (ssMidBeam P L).supports = [⟨"A", .pin, 0⟩, ⟨"B", .roller, L⟩] := by
  show insertS _ (insertS _ (sortByPosition [])) = _
  simp [sortByPosition, insertS, hL]

lemma ssMid_reactions (P L : ℚ) (hL : 0 < L) :
    (solveReactions (ssMidBeam P L)).1 =
      [("A", ⟨P / 2, none, none⟩), ("B", ⟨P / 2, none, none⟩)] := by
  unfold solveReactions
  rw [ssMid_sorted P L hL.le]
  have hPF : ((SupportType.pin == SupportType.fixed) = false) := rfl
  have hRF : ((SupportType.roller == SupportType.fixed) = false) := rfl
  simp only [List.find?, hPF, hRF]
  norm_num [getTotalLoads, gtlLoadFyM, ssMidBeam, List.foldl]
  constructor
  · field_simp
    ring
  · field_simp
    ring

lemma ssMid_eff (P L : ℚ) (hP : 2 * eps10 < P) (hL : 0 < L) :
    effLoads (ssMidBeam P L) =
      [{ id := "P1", type := .point, position := L / 2, magnitude := P },
       { id := "reac-A-y", type := .point, position := 0, magnitude := -(P / 2) },
       { id := "reac-B-y", type := .point, position := L, magnitude := -(P / 2) }] := by
  have hP0 : 0 < P := lt_trans (by norm_num [eps10]) hP
  have habs : |P / 2| > eps10 := by
    rw [abs_of_pos (by linarith)]
    linarith
  have hAA : (("A" == "A") = true) := rfl
  have hAB : (("A" == "B") = false) := rfl
  have hBB : (("B" == "B") = true) := rfl
  unfold effLoads
  rw [ssMid_reactions P L hL]
  simp only [buildAllLoads, ssMidBeam, List.map, List.find?, hAA, hAB, hBB, if_pos habs,
    List.flatten]
  rfl

lemma ssMid_dx (P L : ℚ) : dx (ssMidBeam P L) = L / 500 := by
  norm_num [dx, points, ssMidBeam]

lemma ssMid_bmVal (P L : ℚ) (hP : 2 * eps10 < P) (hL : 0 < L) (i : ℕ) (hi : i ≤ points) :
    bmVal (ssMidBeam P L) i =
      if 250 ≤ i then P / 2 * (L - (i : ℚ) * (L / 500))
      else P / 2 * ((i : ℚ) * (L / 500)) := by
  have hi500 : i ≤ 500 := by simpa [points] using hi
  unfold bmVal
  rw [ssMid_eff P L hP hL, ssMid_dx]
  simp only [stationVM, List.foldl, loadVM, ssMidBeam]
  have hge0 : (i : ℚ) * (L / 500) ≥ 0 := by positivity
  rw [if_pos hge0]
  by_cases h250 : 250 ≤ i
  · have h250q : (250 : ℚ) ≤ (i : ℚ) := by exact_mod_cast h250
    have hxL2 : (i : ℚ) * (L / 500) ≥ L / 2 := by nlinarith
    rw [if_pos hxL2, if_pos h250]
    rcases eq_or_lt_of_le hi500 with h500 | h500
    · subst h500
      have hxL : ((500 : ℕ) : ℚ) * (L / 500) ≥ L := by push_cast; nlinarith
      rw [if_pos hxL]
      push_cast
      ring
    · have hxL : ¬ ((i : ℚ) * (L / 500) ≥ L) := by
        intro hcon
        have : (i : ℚ) < 500 := by exact_mod_cast h500
        nlinarith
      rw [if_neg hxL]
      ring
  · have h250q : (i : ℚ) < 250 := by exact_mod_cast not_le.mp h250
    have hxL2 : ¬ ((i : ℚ) * (L / 500) ≥ L / 2) := by
      intro hcon
      nlinarith
    have hxL : ¬ ((i : ℚ) * (L / 500) ≥ L) := by
      intro hcon
      nlinarith
    rw [if_neg hxL2, if_neg hxL, if_neg h250]
    ring

/-- C5 (corrected): for the simply supported beam with a midspan point load
`P`, provided `P` exceeds twice the `1e-10` reaction-injection threshold (so
the reactions re-enter the effective load set) and `L > 0`, the computed
reactions are `R_A = R_B = P/2` and the maximum of `|M|` over the 501
stations equals `P·L/4`, attained at station 250, i.e. `x = L/2`. -/
theorem c5_midspan (P L : ℚ) (hP : 2 * eps10 < P) (hL : 0 < L) :
    (solveBeam (ssMidBeam P L)).reactions =
      [("A", ⟨P / 2, none, none⟩), ("B", ⟨P / 2, none, none⟩)] ∧
    (solveBeam (ssMidBeam P L)).maxBendingMoment = P * L / 4 ∧
    (solveBeam (ssMidBeam P L)).bendingMoment[250]? = some ⟨L / 2, P * L / 4⟩ := by
  have hP0 : 0 < P := lt_trans (by norm_num [eps10]) hP
  have hval : ∀ i : ℕ,
      (stationVM (ssMidBeam P L).length (effLoads (ssMidBeam P L))
        ((i : ℚ) * dx (ssMidBeam P L))).2 = bmVal (ssMidBeam P L) i := fun _ => rfl
  have h250 : bmVal (ssMidBeam P L) 250 = P * L / 4 := by
    rw [ssMid_bmVal P L hP hL 250 (by norm_num [points])]
    rw [if_pos (le_refl 250)]
    push_cast
    ring
  refine ⟨?_, ?_, ?_⟩
  · rw [solveBeam_reactions]
    exact ssMid_reactions P L hL
  · rw [solveBeam_maxBendingMoment]
    apply runMaxAbs_eq
    · positivity
    · intro pt hpt
      unfold bendingMomentSeries at hpt
      simp only [List.mem_map, List.mem_range] at hpt
      obtain ⟨i, hi, rfl⟩ := hpt
      show |(stationVM _ _ _).2| ≤ P * L / 4
      rw [hval i, ssMid_bmVal P L hP hL i (by simp only [points] at hi ⊢; omega)]
      have hi500 : (i : ℚ) ≤ 500 := by
        have : i ≤ 500 := by simpa [points] using Nat.lt_succ_iff.mp hi
        exact_mod_cast this
      have hge0 : (0 : ℚ) ≤ (i : ℚ) := Nat.cast_nonneg i
      split_ifs with hc
      · have hcq : (250 : ℚ) ≤ (i : ℚ) := by exact_mod_cast hc
        have h1 : 0 ≤ (500 - (i : ℚ)) * L := mul_nonneg (by linarith) hL.le
        have h2 : 0 ≤ ((i : ℚ) - 250) * L := mul_nonneg (by linarith) hL.le
        rw [abs_of_nonneg (by nlinarith [mul_nonneg hP0.le h1])]
        nlinarith [mul_nonneg hP0.le h2]
      · have hcq : (i : ℚ) < 250 := by exact_mod_cast not_le.mp hc
        have h3 : 0 ≤ (i : ℚ) * L := mul_nonneg hge0 hL.le
        have h4 : 0 ≤ (250 - (i : ℚ)) * L := mul_nonneg (by linarith) hL.le
        rw [abs_of_nonneg (by nlinarith [mul_nonneg hP0.le h3])]
        nlinarith [mul_nonneg hP0.le h4]
    · refine ⟨⟨(250 : ℚ) * dx (ssMidBeam P L), bmVal (ssMidBeam P L) 250⟩, ?_, ?_⟩
      · unfold bendingMomentSeries
        simp only [List.mem_map, List.mem_range]
        refine ⟨250, by norm_num [points], ?_⟩
        rw [Pt.mk.injEq]
        exact ⟨by norm_num, by rw [hval 250]⟩
      · rw [h250, abs_of_nonneg (by positivity)]
  · rw [solveBeam_bendingMoment]
    unfold bendingMomentSeries
    rw [List.getElem?_map, List.getElem?_range (by norm_num [points])]
    simp only [Option.map_some', Option.some.injEq]
    rw [Pt.mk.injEq]
    constructor
    · rw [ssMid_dx]
      push_cast
      ring
    · rw [hval 250, h250]

lemma c5cex_eff : effLoads (ssMidBeam (2 / 10 ^ 10) 1) = (ssMidBeam (2 / 10 ^ 10) 1).loads := by
  have hAA : (("A" == "A") = true) := rfl
  have hAB : (("A" == "B") = false) := rfl
  have hBB : (("B" == "B") = true) := rfl
  unfold effLoads
  rw [ssMid_reactions (2 / 10 ^ 10) 1 one_pos]
  norm_num [buildAllLoads, ssMidBeam, List.find?, eps10, hAA, hAB, hBB]
  rw [abs_of_pos (by norm_num : (0 : ℚ) < 1 / 10000000000)]

lemma c5cex_bmVal (i : ℕ) (_hi : i ≤ points) :
    bmVal (ssMidBeam (2 / 10 ^ 10) 1) i =
      if 250 ≤ i then -(2 / 10 ^ 10) * ((i : ℚ) * (1 / 500) - 1 / 2) else 0 := by
  unfold bmVal
  rw [c5cex_eff, ssMid_dx]
  simp only [stationVM, List.foldl, loadVM, ssMidBeam]
  by_cases h250 : 250 ≤ i
  · have hcq : (250 : ℚ) ≤ (i : ℚ) := by exact_mod_cast h250
    have hxge : (i : ℚ) * ((1 : ℚ) / 500) ≥ 1 / 2 := by nlinarith
    rw [if_pos hxge, if_pos h250]
    ring
  · have hcq : (i : ℚ) < 250 := by exact_mod_cast not_le.mp h250
    have hxge : ¬ ((i : ℚ) * ((1 : ℚ) / 500) ≥ 1 / 2) := by
      intro hcon
      nlinarith
    rw [if_neg hxge, if_neg h250]
    ring

/-- C5 counterexample: at `P = 2·10⁻¹⁰` (a positive load magnitude, exactly
at the reaction-injection threshold) and `L = 1`, the computed reactions
`P/2 = 10⁻¹⁰` do not exceed `1e-10` and are dropped from the effective load
set, so the sampled maximum `|M|` is `P·L/2 = 10⁻¹⁰` at the far end — not
the `P·L/4` the claim asserts for every `P` in exact arithmetic. -/
theorem c5_cex :
    (solveBeam (ssMidBeam (2 / 10 ^ 10) 1)).maxBendingMoment = 1 / 10 ^ 10 ∧
    ((1 : ℚ) / 10 ^ 10 ≠ 2 / 10 ^ 10 * 1 / 4) := by
  constructor
  · rw [solveBeam_maxBendingMoment]
    apply runMaxAbs_eq
    · norm_num
    · intro pt hpt
      unfold bendingMomentSeries at hpt
      simp only [List.mem_map, List.mem_range] at hpt
      obtain ⟨i, hi, rfl⟩ := hpt
      show |(stationVM _ _ _).2| ≤ 1 / 10 ^ 10
      rw [show (stationVM (ssMidBeam (2 / 10 ^ 10) 1).length
          (effLoads (ssMidBeam (2 / 10 ^ 10) 1))
          ((i : ℚ) * dx (ssMidBeam (2 / 10 ^ 10) 1))).2 =
          bmVal (ssMidBeam (2 / 10 ^ 10) 1) i from rfl]
      rw [c5cex_bmVal i (by simp only [points] at hi ⊢; omega)]
      have hi500 : (i : ℚ) ≤ 500 := by
        have : i ≤ 500 := by simpa [points] using Nat.lt_succ_iff.mp hi
        exact_mod_cast this
      split_ifs with hc
      · have hcq : (250 : ℚ) ≤ (i : ℚ) := by exact_mod_cast hc
        rw [abs_of_nonpos (by nlinarith)]
        nlinarith
      · simp
    · refine ⟨⟨(500 : ℚ) * dx (ssMidBeam (2 / 10 ^ 10) 1),
          bmVal (ssMidBeam (2 / 10 ^ 10) 1) 500⟩, ?_, ?_⟩
      · unfold bendingMomentSeries
        simp only [List.mem_map, List.mem_range]
        refine ⟨500, by norm_num [points], ?_⟩
        rw [Pt.mk.injEq]
        exact ⟨by norm_num, rfl⟩
      · rw [c5cex_bmVal 500 (by norm_num [points])]
        norm_num
  · norm_num

theorem c5_midspan_witness :
    (2 * eps10 < (4 : ℚ) ∧ (0 : ℚ) < 10) ∧
    ((solveBeam (ssMidBeam 4 10)).reactions =
      [("A", ⟨4 / 2, none, none⟩), ("B", ⟨4 / 2, none, none⟩)] ∧
     (solveBeam (ssMidBeam 4 10)).maxBendingMoment = 4 * 10 / 4 ∧
     (solveBeam (ssMidBeam 4 10)).bendingMoment[250]? = some ⟨10 / 2, 4 * 10 / 4⟩) :=
  ⟨⟨by norm_num [eps10], by norm_num⟩,
    c5_midspan 4 10 (by norm_num [eps10]) (by norm_num)⟩
